import Mathlib

/-!
# go-check-http-methods: the method prober, its classifier and the URL scanner

A shallow embedding of `main.go`: `testMethod` (request construction, the two
error returns and the three classification rules) and the per-URL body of
`runTests` (semaphore channel, wait group, view-mode filter).

Go `string` values are Lean `String`s, Go `int`/`int64` values are `Int`s.
What `main.go` obtains from outside the file (the network, the clock, the
package variable `color.NoColor`, cookie and credential encoding) is collected
in `Env`.
-/

namespace CheckHttpMethods

/-! ## Data model (main.go:32-95) -/

/-- The map `dangerousMethods` (main.go:32-43); indexing a Go map with an absent
key gives the zero value `false`. -/
def dangerousMethods (method : String) : Bool :=
  method == "PUT" || method == "DELETE" || method == "TRACE" || method == "PROPFIND" ||
  method == "PROPPATCH" || method == "MKCOL" || method == "COPY" || method == "MOVE" ||
  method == "LOCK" || method == "UNLOCK"

/-- The fields of `options` (main.go:45-65) read by `runTests` and `testMethod`. -/
structure options where
  concurrent : Int
  viewMode : String
  userAgent : String
  headers : List String
  cookies : List String
  auth : String
deriving DecidableEq, Repr

/-- Result for a single HTTP method test (main.go:80-89). -/
structure MethodResult where
  Method : String
  StatusCode : Int
  Status : String
  ResponseTime : Int
  ContentLength : Int
  IsDangerous : Bool
  IsVulnerable : Bool
  VulnDescription : String
deriving DecidableEq, Repr

/-! ## Library functions called by `testMethod` -/

/-- Go `unicode.IsSpace`, the predicate `strings.TrimSpace` trims with. -/
def isSpace (c : Char) : Bool :=
  let n := c.toNat
  (9 ≤ n && n ≤ 13) || n == 32 || n == 0x85 || n == 0xA0 || n == 0x1680 ||
  (0x2000 ≤ n && n ≤ 0x200a) || n == 0x2028 || n == 0x2029 || n == 0x202f ||
  n == 0x205f || n == 0x3000

/-- Go `strings.TrimSpace`: leading and trailing white space removed. -/
def stringsTrimSpace (s : String) : String :=
  ⟨((s.data.dropWhile isSpace).reverse.dropWhile isSpace).reverse⟩

/-- Splitting of a character list at the first occurrence of `sep`:
`none` when `sep` does not occur. -/
def cutAtFirst (sep : Char) : List Char → Option (List Char × List Char)
  | [] => none
  | c :: cs =>
    if c = sep then some ([], cs)
    else match cutAtFirst sep cs with
      | none => none
      | some (a, b) => some (c :: a, b)

/-- Go `strings.SplitN(s, sep, 2)` for a one-character separator: the whole string
when the separator is absent, otherwise the text before and after its first
occurrence. -/
def stringsSplitN2 (s : String) (sep : Char) : List String :=
  match cutAtFirst sep s.data with
  | none => [s]
  | some (a, b) => [⟨a⟩, ⟨b⟩]

/-- Whether the first character list starts the second one. -/
def startsWithChars : List Char → List Char → Bool
  | [], _ => true
  | _ :: _, [] => false
  | a :: as, b :: bs => a == b && startsWithChars as bs

/-- Whether `sub` occurs in `s` as a contiguous block. -/
def containsChars (sub : List Char) : List Char → Bool
  | [] => sub.isEmpty
  | c :: cs => startsWithChars sub (c :: cs) || containsChars sub cs

/-- Go `strings.Contains(s, substr)`. -/
def stringsContains (s substr : String) : Bool :=
  containsChars substr.data s.data

/-- Go `net/textproto` `validHeaderFieldByte`: the token characters of RFC 7230. -/
def validHeaderFieldByte (c : Char) : Bool :=
  c.isAlphanum || "!#$%&*+-.^_|~".data.contains c || c == Char.ofNat 39 || c == Char.ofNat 96

/-- The case-fixing loop of Go `canonicalMIMEHeaderKey`: upper case at the start and
after each dash, lower case elsewhere. -/
def canonLoop : Bool → List Char → List Char
  | _, [] => []
  | upper, c :: cs =>
    let d := if upper && c.isLower then c.toUpper
             else if !upper && c.isUpper then c.toLower else c
    d :: canonLoop (d == '-') cs

/-- Go `textproto.CanonicalMIMEHeaderKey`: a key made of token characters only is
case-fixed, any other key is returned unchanged. -/
def canonicalMIMEHeaderKey (s : String) : String :=
  if s.data.all validHeaderFieldByte then ⟨canonLoop true s.data⟩ else s

/-- Go `http.Header`, a `map[string][]string`, as an association list with at most
one entry per key. -/
abbrev Header := List (String × List String)

/-- Map read `h[key]`; an absent key gives the nil slice. -/
def Header.values (h : Header) (key : String) : List String :=
  (h.lookup key).getD []

/-- Map write `h[key] = vs`. -/
def Header.put (h : Header) (key : String) (vs : List String) : Header :=
  (key, vs) :: h.filter (fun e => e.1 != key)

/-- Go `Header.Add`: append `value` to the values of the canonical key. -/
def Header.Add (h : Header) (key value : String) : Header :=
  let k := canonicalMIMEHeaderKey key
  h.put k (h.values k ++ [value])

/-- Go `Header.Set`: the canonical key gets the single value `value`. -/
def Header.Set (h : Header) (key value : String) : Header :=
  h.put (canonicalMIMEHeaderKey key) [value]

/-- Go `Header.Get`: first value of the canonical key, `""` when there is none. -/
def Header.Get (h : Header) (key : String) : String :=
  match h.values (canonicalMIMEHeaderKey key) with
  | [] => ""
  | v :: _ => v

/-- The parts of `*http.Request` that `testMethod` writes. -/
structure Request where
  Method : String
  URL : String
  Header : Header
deriving DecidableEq, Repr

/-- The parts of `*http.Response` that `testMethod` reads; `Body` is what
`io.ReadAll(resp.Body)` returned. -/
structure Response where
  StatusCode : Int
  Status : String
  Body : String
deriving DecidableEq, Repr

/-- What `testMethod` obtains from outside `main.go`.
* `noColor`: the package variable `color.NoColor` of github.com/fatih/color
  (set by `main` under `-nc`, otherwise decided by the terminal);
* `newRequestError`: the error of `http.NewRequest(method, url, nil)`, if any;
* `clientDo`: the outcome of `client.Do(req)`, an error text or a response;
* `elapsed`: `endTime.Sub(startTime).Milliseconds()` around that call;
* `cookieString`: the `name=value` text `AddCookie` renders for a cookie;
* `basicAuth`: the `Authorization` value `SetBasicAuth` renders. -/
structure Env where
  noColor : Bool
  newRequestError : String → String → Option String
  clientDo : Request → Except String Response
  elapsed : Request → Int
  cookieString : String → String → String
  basicAuth : String → String → String

/-- The call `color.New(color.FgHiRed).Sprintf(format, args...)` applied to the
already formatted text: unchanged when `color.NoColor` is set, otherwise between
the escape sequence of attribute 91 and the reset sequence. -/
def sprintfHiRed (noColor : Bool) (s : String) : String :=
  if noColor then s else "\x1b[91m" ++ s ++ "\x1b[0m"

/-- Go `Request.AddCookie`: the rendered cookie is joined to the `Cookie` header
with `"; "`, or becomes the header when it is empty. -/
def Request.AddCookie (env : Env) (req : Request) (name value : String) : Request :=
  let s := env.cookieString name value
  let c := req.Header.Get "Cookie"
  if c != "" then { req with Header := req.Header.Set "Cookie" (c ++ "; " ++ s) }
  else { req with Header := req.Header.Set "Cookie" s }

/-- Go `Request.SetBasicAuth`. -/
def Request.SetBasicAuth (env : Env) (req : Request) (username password : String) : Request :=
  { req with Header := req.Header.Set "Authorization" (env.basicAuth username password) }

/-! ## `testMethod` (main.go:355-449) -/

/-- One round of the header loop (main.go:369-374). -/
def addHeader (req : Request) (header : String) : Request :=
  let parts := stringsSplitN2 header ':'
  if parts.length = 2 then
    { req with Header := req.Header.Add (stringsTrimSpace (parts.getD 0 ""))
                                        (stringsTrimSpace (parts.getD 1 "")) }
  else req

/-- One round of the cookie loop (main.go:378-386). -/
def addCookie (env : Env) (req : Request) (cookie : String) : Request :=
  let parts := stringsSplitN2 cookie '='
  if parts.length = 2 then req.AddCookie env (parts.getD 0 "") (parts.getD 1 "")
  else req

/-- The request `testMethod` hands to `client.Do` (main.go:369-394), starting from
the request `req` that `http.NewRequest` returned. -/
def buildRequest (env : Env) (req : Request) (opts : options) : Request :=
  let req := opts.headers.foldl addHeader req
  let req := { req with Header := req.Header.Set "User-Agent" opts.userAgent }
  let req := opts.cookies.foldl (addCookie env) req
  if opts.auth != "" then
    let parts := stringsSplitN2 opts.auth ':'
    if parts.length = 2 then req.SetBasicAuth env (parts.getD 0 "") (parts.getD 1 "")
    else req
  else req

/-- The request value of a successful `http.NewRequest(method, url, nil)`: an empty
method means GET and the header map is empty. -/
def newRequest (method url : String) : Request :=
  { Method := if method == "" then "GET" else method, URL := url, Header := [] }

/-- Classification of a received response (main.go:414-448). `ua` is
`req.Header.Get("User-Agent")` of the request that was sent. -/
def classify (noColor : Bool) (method ua : String) (responseTime : Int) (resp : Response) :
    MethodResult :=
  let bodyStr := resp.Body
  let contentLength : Int := bodyStr.utf8ByteSize
  let v : Bool × String := (false, "")
  let v := if dangerousMethods method && (resp.StatusCode ≥ 200 && resp.StatusCode < 400) then
      (true, sprintfHiRed noColor ("Potentially dangerous method " ++ method ++ " is allowed"))
    else v
  let v := if method == "TRACE" && resp.StatusCode == 200 && stringsContains bodyStr ua then
      (true, "TRACE method enabled and echoing request headers (potential Cross-Site Tracing vulnerability)")
    else v
  let v := if method != "GET" && method != "HEAD" && method != "OPTIONS" &&
        (resp.StatusCode == 200 || resp.StatusCode == 204) then
      (true, sprintfHiRed noColor
        ("Potential HTTP verb tampering vulnerability with method " ++ method))
    else v
  { Method := method
    StatusCode := resp.StatusCode
    Status := resp.Status
    ResponseTime := responseTime
    ContentLength := contentLength
    IsDangerous := dangerousMethods method
    IsVulnerable := v.1
    VulnDescription := v.2 }

/-- The function `testMethod` (main.go:355-449). -/
def testMethod (env : Env) (url method : String) (opts : options) : MethodResult :=
  match env.newRequestError method url with
  | some err =>
    { Method := method, StatusCode := 0, Status := "Error: " ++ err, ResponseTime := 0,
      ContentLength := 0, IsDangerous := dangerousMethods method, IsVulnerable := false,
      VulnDescription := "" }
  | none =>
    let req := buildRequest env (newRequest method url) opts
    let responseTime := env.elapsed req
    match env.clientDo req with
    | .error err =>
      { Method := method, StatusCode := 0, Status := "Error: " ++ err,
        ResponseTime := responseTime, ContentLength := 0,
        IsDangerous := dangerousMethods method, IsVulnerable := false, VulnDescription := "" }
    | .ok resp => classify env.noColor method (req.Header.Get "User-Agent") responseTime resp

/-! ## Predicates on the header map -/

/-- ASCII lower-casing of every character, the comparison key of a case-insensitive
header-name match. -/
def asciiLower (s : String) : String :=
  ⟨s.data.map Char.toLower⟩

/-- Every key of the map is a value of `canonicalMIMEHeaderKey`. -/
def CanonicalKeys (h : Header) : Prop :=
  ∀ e ∈ h, ∃ x, e.1 = canonicalMIMEHeaderKey x

/-- What the later steps of `buildRequest` keep: the `User-Agent` entry, its value
as read by `Get`, and canonical keys. -/
def UserAgentIs (ua : String) (h : Header) : Prop :=
  h.filter (fun e => e.1 == "User-Agent") = [("User-Agent", [ua])] ∧
  h.values "User-Agent" = [ua] ∧ CanonicalKeys h

/-! ## The rules of the classifier as the specification words them -/

/-- Rule A of the specification: the method is dangerous and `200 <= status < 400`. -/
def ruleA (method : String) (statusCode : Int) : Bool :=
  dangerousMethods method && decide (200 ≤ statusCode) && decide (statusCode < 400)

/-- Rule B of the specification: the method is TRACE, the status is 200 and the body
contains the User-Agent that was sent. -/
def ruleB (method : String) (statusCode : Int) (body ua : String) : Bool :=
  method == "TRACE" && statusCode == 200 && stringsContains body ua

/-- Rule C of the specification: the method is none of GET, HEAD, OPTIONS and the
status is 200 or 204. -/
def ruleC (method : String) (statusCode : Int) : Bool :=
  !(method == "GET" || method == "HEAD" || method == "OPTIONS") &&
  (statusCode == 200 || statusCode == 204)

/-- Text of the dangerous-method message. -/
def dangerousText (method : String) : String :=
  "Potentially dangerous method " ++ method ++ " is allowed"

/-- Text of the Cross-Site Tracing message. -/
def tracingText : String :=
  "TRACE method enabled and echoing request headers (potential Cross-Site Tracing vulnerability)"

/-- Text of the verb-tampering message. -/
def tamperingText (method : String) : String :=
  "Potential HTTP verb tampering vulnerability with method " ++ method

/-- Description the specification gives: the bare message of the last rule, in the
order A, B, C, whose condition holds, and the empty string when none holds. -/
def specDescription (method : String) (statusCode : Int) (body ua : String) : String :=
  if ruleC method statusCode then tamperingText method
  else if ruleB method statusCode body ua then tracingText
  else if ruleA method statusCode then dangerousText method
  else ""

/-- The description of the last rule that holds with the messages of rules A and C
passed through the colour call of main.go:424 and main.go:436, the message of rule B
bare as in main.go:429. -/
def renderedDescription (noColor : Bool) (method : String) (statusCode : Int) (body ua : String) :
    String :=
  if ruleC method statusCode then sprintfHiRed noColor (tamperingText method)
  else if ruleB method statusCode body ua then tracingText
  else if ruleA method statusCode then sprintfHiRed noColor (dangerousText method)
  else ""

/-- The classifier of `testMethod` with the TRACE block (main.go:427-430) deleted. -/
def classifyWithoutTraceRule (noColor : Bool) (method : String) (responseTime : Int)
    (resp : Response) : MethodResult :=
  let bodyStr := resp.Body
  let contentLength : Int := bodyStr.utf8ByteSize
  let v : Bool × String := (false, "")
  let v := if dangerousMethods method && (resp.StatusCode ≥ 200 && resp.StatusCode < 400) then
      (true, sprintfHiRed noColor ("Potentially dangerous method " ++ method ++ " is allowed"))
    else v
  let v := if method != "GET" && method != "HEAD" && method != "OPTIONS" &&
        (resp.StatusCode == 200 || resp.StatusCode == 204) then
      (true, sprintfHiRed noColor
        ("Potential HTTP verb tampering vulnerability with method " ++ method))
    else v
  { Method := method
    StatusCode := resp.StatusCode
    Status := resp.Status
    ResponseTime := responseTime
    ContentLength := contentLength
    IsDangerous := dangerousMethods method
    IsVulnerable := v.1
    VulnDescription := v.2 }

/-! ## Request construction as the specification words it -/

/-- A header entry read as the specification words it: nothing without a `:`, otherwise
the name and the value around the first `:`, both trimmed. -/
def parseHeader (header : String) : Option (String × String) :=
  match cutAtFirst ':' header.data with
  | none => none
  | some (a, b) => some (stringsTrimSpace ⟨a⟩, stringsTrimSpace ⟨b⟩)

/-- A cookie entry read as the specification words it: nothing without a `=`, otherwise
the name and the value around the first `=`. -/
def parseCookie (cookie : String) : Option (String × String) :=
  match cutAtFirst '=' cookie.data with
  | none => none
  | some (a, b) => some (⟨a⟩, ⟨b⟩)

/-- The request described entry by entry: the well-formed headers added in the order
supplied, the configured User-Agent set, the well-formed cookies added in the order
supplied, the credentials set when configured. -/
def requestFromEntries (env : Env) (req : Request) (opts : options) : Request :=
  let withHeaders := (opts.headers.filterMap parseHeader).foldl
    (fun r e => { r with Header := r.Header.Add e.1 e.2 }) req
  let withAgent := { withHeaders with
    Header := withHeaders.Header.Set "User-Agent" opts.userAgent }
  let withCookies := (opts.cookies.filterMap parseCookie).foldl
    (fun r e => r.AddCookie env e.1 e.2) withAgent
  if opts.auth = "" then withCookies
  else
    match cutAtFirst ':' opts.auth.data with
    | none => withCookies
    | some (u, w) => withCookies.SetBasicAuth env ⟨u⟩ ⟨w⟩

/-! ## Concrete environments -/

/-- The default option values of `parseOptions` (main.go:166-184). -/
def defaultOptions : options :=
  { concurrent := 10, viewMode := "all", userAgent := "Go-HTTP-Method-Tester/1.0.0",
    headers := [], cookies := [], auth := "" }

/-- An environment whose server answers every request with the given status and body. -/
def fixedServer (noColor : Bool) (statusCode : Int) (status body : String) : Env where
  noColor := noColor
  newRequestError := fun _ _ => none
  clientDo := fun _ => .ok { StatusCode := statusCode, Status := status, Body := body }
  elapsed := fun _ => 12
  cookieString := fun n v => n ++ "=" ++ v
  basicAuth := fun u p => "Basic " ++ u ++ ":" ++ p

/-- An environment in which a method containing a blank is refused by `http.NewRequest`
and every connection attempt fails. -/
def failingEnv : Env where
  noColor := false
  newRequestError := fun m _ =>
    if m.data.contains (Char.ofNat 32) then some ("net/http: invalid method " ++ m) else none
  clientDo := fun _ => .error "dial tcp 127.0.0.1:9: connect: connection refused"
  elapsed := fun _ => 3
  cookieString := fun n v => n ++ "=" ++ v
  basicAuth := fun u p => "Basic " ++ u ++ ":" ++ p

/-- An environment whose server answers 200 to a request with exactly the header map
`expected` and refuses every other request. -/
def strictServer (expected : Header) : Env where
  noColor := true
  newRequestError := fun _ _ => none
  clientDo := fun req =>
    if req.Header = expected then .ok { StatusCode := 200, Status := "200 OK", Body := "" }
    else .error "unexpected request"
  elapsed := fun _ => 7
  cookieString := fun n v => n ++ "=" ++ v
  basicAuth := fun u w => "Basic " ++ u ++ ":" ++ w

/-- Options with malformed entries between well-formed ones. -/
def mixedOptions : options :=
  { defaultOptions with
    headers := ["X-Probe: 1", "BadHeaderNoColon", " x-probe :2:3 ", "Accept:*/*"],
    cookies := ["sid=abc", "nocookie", "theme=a=b"] }

/-- The dangerous set as the specification lists it. -/
def dangerousSet : List String :=
  ["PUT", "DELETE", "TRACE", "PROPFIND", "PROPPATCH", "MKCOL", "COPY", "MOVE", "LOCK", "UNLOCK"]

/-! ## The scan of one URL in `runTests` (main.go:293-347)

The loop body, the goroutine it starts and `wg.Wait()` are modelled as a transition
system: one `Action` per statement that touches the channel `sem`, the wait group
`wg`, the result list or the life of a goroutine; a schedule is any list of actions.
-/

/-- The `switch opts.viewMode` deciding `shouldAdd` (main.go:309-317). -/
def shouldAdd (viewMode : String) (result : MethodResult) : Bool :=
  if viewMode == "all" then true
  else if viewMode == "enabled" then result.StatusCode != 405 && result.StatusCode != 501
  else if viewMode == "vulnerable" then result.IsVulnerable
  else false

/-- Where a probe goroutine (main.go:301-343) stands. -/
inductive Stage where
  /-- Started; the call of `testMethod` (line 307) is in flight. -/
  | probing
  /-- The call of `testMethod` returned `result`; lines 309-323 not yet run. -/
  | tested (result : MethodResult)
  /-- Past the append; the deferred function has not run. -/
  | recorded
  /-- The deferred `<-sem` (line 303) is done, `wg.Done()` is not. -/
  | released
  /-- The deferred `wg.Done()` (line 304) is done. -/
  | exited
deriving DecidableEq, Repr

/-- A goroutine started by the `go` statement of line 301. -/
structure Goroutine where
  method : String
  stage : Stage
deriving DecidableEq, Repr

/-- Where the loop of lines 297-347 stands. -/
inductive MainStage where
  /-- Before `sem <- true` of the next method, or at `wg.Wait()` when none is left. -/
  | loopHead
  /-- After `sem <- true` (line 298), before `wg.Add(1)`. -/
  | sent (method : String)
  /-- After `wg.Add(1)` (line 299), before the `go` statement. -/
  | added (method : String)
  /-- The call `wg.Wait()` (line 347) has returned. -/
  | finished
deriving DecidableEq, Repr

/-- State of the scan of one URL. -/
structure ScanState where
  /-- Methods the `for` loop has not reached. -/
  pending : List String
  main : MainStage
  /-- Number of values buffered in the channel `sem`. -/
  sem : Nat
  /-- Counter of the wait group `wg`. -/
  wg : Nat
  /-- Goroutines in the order they were started. -/
  goroutines : List Goroutine
  /-- The slice `urlResult.Results`. -/
  results : List MethodResult
deriving DecidableEq, Repr

/-- The statements of the scan; a goroutine is named by its start position. -/
inductive Action where
  /-- Line 298, `sem <- true`: possible while the buffer holds fewer than its capacity. -/
  | send
  /-- Line 299, `wg.Add(1)`. -/
  | add
  /-- Line 301, the `go` statement. -/
  | spawn
  /-- Line 307, `testMethod` returns in goroutine `i`. -/
  | probeReturns (i : Nat)
  /-- Lines 309-323, the view-mode switch and the append under `mu` in goroutine `i`. -/
  | record (i : Nat)
  /-- Line 303, the deferred `<-sem` of goroutine `i`: possible while the buffer is not empty. -/
  | release (i : Nat)
  /-- Line 304, the deferred `wg.Done()` of goroutine `i`. -/
  | wgDone (i : Nat)
  /-- Line 347, `wg.Wait()` returns: possible when the counter is zero. -/
  | wait
deriving DecidableEq, Repr

/-- State before the loop: `sem := make(chan bool, opts.concurrent)`, a fresh wait
group and an empty result slice (main.go:288-295). -/
def initScan (methods : List String) : ScanState :=
  { pending := methods, main := .loopHead, sem := 0, wg := 0, goroutines := [], results := [] }

/-- One statement of the scan of `url`; `none` when the statement is not the next one
of its thread or would block. -/
def step (env : Env) (url : String) (opts : options) (s : ScanState) :
    Action → Option ScanState
  | .send =>
    match s.main, s.pending with
    | .loopHead, m :: rest =>
      if s.sem < opts.concurrent.toNat then
        some { s with main := .sent m, pending := rest, sem := s.sem + 1 }
      else none
    | _, _ => none
  | .add =>
    match s.main with
    | .sent m => some { s with main := .added m, wg := s.wg + 1 }
    | _ => none
  | .spawn =>
    match s.main with
    | .added m =>
      some { s with main := .loopHead, goroutines := s.goroutines ++ [⟨m, .probing⟩] }
    | _ => none
  | .probeReturns i =>
    match s.goroutines.get? i with
    | some g =>
      match g.stage with
      | .probing =>
        some { s with goroutines :=
          s.goroutines.set i ⟨g.method, .tested (testMethod env url g.method opts)⟩ }
      | _ => none
    | none => none
  | .record i =>
    match s.goroutines.get? i with
    | some g =>
      match g.stage with
      | .tested result =>
        some { s with
          goroutines := s.goroutines.set i ⟨g.method, .recorded⟩
          results := if shouldAdd opts.viewMode result then s.results ++ [result]
                     else s.results }
      | _ => none
    | none => none
  | .release i =>
    match s.goroutines.get? i with
    | some g =>
      match g.stage with
      | .recorded =>
        if 0 < s.sem then
          some { s with goroutines := s.goroutines.set i ⟨g.method, .released⟩,
                        sem := s.sem - 1 }
        else none
      | _ => none
    | none => none
  | .wgDone i =>
    match s.goroutines.get? i with
    | some g =>
      match g.stage with
      | .released =>
        if 0 < s.wg then
          some { s with goroutines := s.goroutines.set i ⟨g.method, .exited⟩,
                        wg := s.wg - 1 }
        else none
      | _ => none
    | none => none
  | .wait =>
    match s.main, s.pending with
    | .loopHead, [] => if s.wg = 0 then some { s with main := .finished } else none
    | _, _ => none

/-- A schedule run from `s`; `none` when one of its statements cannot run. -/
def runSchedule (env : Env) (url : String) (opts : options) (s : ScanState) :
    List Action → Option ScanState
  | [] => some s
  | a :: rest =>
    match step env url opts s a with
    | some t => runSchedule env url opts t rest
    | none => none

/-- Number of goroutines whose call of `testMethod` is in flight. -/
def inFlight (s : ScanState) : Nat :=
  s.goroutines.countP (fun g => g.stage == .probing)

/-- The schedule that runs the goroutines one after the other: for the `n` methods
left, the first of them becoming goroutine `k`. -/
def sequentialSchedule : Nat → Nat → List Action
  | 0, _ => [.wait]
  | n + 1, k =>
    [.send, .add, .spawn, .probeReturns k, .record k, .release k, .wgDone k] ++
      sequentialSchedule n (k + 1)

/-- Weight 1 for a goroutine that has not yet received from `sem`. -/
def holdsPermit (g : Goroutine) : Nat :=
  match g.stage with
  | .probing => 1
  | .tested _ => 1
  | .recorded => 1
  | _ => 0

/-- Weight 1 for a goroutine that has not yet called `wg.Done()`. -/
def notDone (g : Goroutine) : Nat :=
  match g.stage with
  | .exited => 0
  | _ => 1

/-- Weight 1 when the loop has sent on `sem` for a method not yet started. -/
def mainPermit : MainStage → Nat
  | .sent _ => 1
  | .added _ => 1
  | _ => 0

/-- Weight 1 when the loop has counted a method in `wg` that is not yet started. -/
def mainAdded : MainStage → Nat
  | .added _ => 1
  | _ => 0

/-- The method the loop is busy starting, if any. -/
def mainMethod : MainStage → List String
  | .sent m => [m]
  | .added m => [m]
  | _ => []

/-- The results a goroutine will still append. -/
def owed (env : Env) (url : String) (opts : options) (g : Goroutine) : Multiset MethodResult :=
  match g.stage with
  | .probing => ↑([testMethod env url g.method opts].filter (shouldAdd opts.viewMode))
  | .tested r => ↑([r].filter (shouldAdd opts.viewMode))
  | _ => 0

/-- The results the methods `ms` yield once probed and filtered by the view mode. -/
def keptOf (env : Env) (url : String) (opts : options) (ms : List String) : List MethodResult :=
  (ms.map (fun m => testMethod env url m opts)).filter (shouldAdd opts.viewMode)

/-- Invariant of the scan of `methods`. -/
structure ScanInv (env : Env) (url : String) (opts : options) (methods : List String)
    (s : ScanState) : Prop where
  permits : (s.goroutines.map holdsPermit).sum + mainPermit s.main = s.sem
  capacity : s.sem ≤ opts.concurrent.toNat
  counter : (s.goroutines.map notDone).sum + mainAdded s.main = s.wg
  order : s.goroutines.map Goroutine.method ++ mainMethod s.main ++ s.pending = methods
  kept : (↑s.results : Multiset MethodResult) + (s.goroutines.map (owed env url opts)).sum +
      ↑(keptOf env url opts (mainMethod s.main ++ s.pending)) = ↑(keptOf env url opts methods)
  final : s.main = .finished → s.pending = [] ∧ s.wg = 0

/-! ## Concrete scan states -/

/-- A scan of GET, PUT, POST under limit 2 with the first two probes in flight. -/
def twoInFlight : ScanState :=
  { pending := ["POST"], main := .loopHead, sem := 2, wg := 2,
    goroutines := [⟨"GET", .probing⟩, ⟨"PUT", .probing⟩], results := [] }

/-- The end of a scan of GET and PUT, both answered 200, under view mode `vulnerable`. -/
def vulnerableScanEnd : ScanState :=
  { pending := [], main := .finished, sem := 0, wg := 0,
    goroutines := [⟨"GET", .exited⟩, ⟨"PUT", .exited⟩],
    results := [{ Method := "PUT", StatusCode := 200, Status := "200 OK", ResponseTime := 12,
                  ContentLength := 0, IsDangerous := true, IsVulnerable := true,
                  VulnDescription :=
                    "Potential HTTP verb tampering vulnerability with method PUT" }] }

/-! ## Character case facts used by `canonicalMIMEHeaderKey` -/

theorem upper_mem (c : Char) (h : c.isUpper = true) :
    c ∈ "ABCDEFGHIJKLMNOPQRSTUVWXYZ".data := by
  simp only [Char.isUpper, Bool.and_eq_true, decide_eq_true_eq] at h
  have h1 : (65 : UInt32).toNat ≤ c.val.toNat := h.1
  have h2 : c.val.toNat ≤ (90 : UInt32).toNat := h.2
  have hc : c = Char.ofNat c.toNat := (Char.ofNat_toNat c).symm
  rw [hc]
  change 65 ≤ c.toNat at h1
  change c.toNat ≤ 90 at h2
  generalize c.toNat = n at *
  interval_cases n <;> decide

theorem lower_mem (c : Char) (h : c.isLower = true) :
    c ∈ "abcdefghijklmnopqrstuvwxyz".data := by
  simp only [Char.isLower, Bool.and_eq_true, decide_eq_true_eq] at h
  have h1 : (97 : UInt32).toNat ≤ c.val.toNat := h.1
  have h2 : c.val.toNat ≤ (122 : UInt32).toNat := h.2
  have hc : c = Char.ofNat c.toNat := (Char.ofNat_toNat c).symm
  rw [hc]
  change 97 ≤ c.toNat at h1
  change c.toNat ≤ 122 at h2
  generalize c.toNat = n at *
  interval_cases n <;> decide

theorem upper_table : ∀ c ∈ "ABCDEFGHIJKLMNOPQRSTUVWXYZ".data,
    c.toLower.isLower = true ∧ c.toLower.toUpper = c ∧ c.isLower = false ∧
    c.toLower.isUpper = false ∧ validHeaderFieldByte c = true ∧ (c.toLower == '-') = false ∧
    (c == '-') = false := by
  decide

theorem lower_table : ∀ c ∈ "abcdefghijklmnopqrstuvwxyz".data,
    c.toUpper.isUpper = true ∧ c.toUpper.toLower = c ∧ c.isUpper = false ∧
    c.toLower = c ∧ (c.toUpper == '-') = false ∧ (c == '-') = false := by
  decide

theorem toLower_of_not_upper (c : Char) (h : c.isUpper = false) : c.toLower = c := by
  simp only [Char.isUpper, Bool.and_eq_false_iff, decide_eq_false_iff_not] at h
  simp only [Char.toLower]
  split
  · rename_i h2
    rcases h with h | h
    · exact absurd h2.1 h
    · exact absurd h2.2 h
  · rfl

theorem toUpper_of_not_lower (c : Char) (h : c.isLower = false) : c.toUpper = c := by
  simp only [Char.isLower, Bool.and_eq_false_iff, decide_eq_false_iff_not] at h
  simp only [Char.toUpper]
  split
  · rename_i h2
    rcases h with h | h
    · exact absurd h2.1 h
    · exact absurd h2.2 h
  · rfl

/-- One step of `canonLoop` sees only the lower-cased character. -/
theorem canonStep_lower (upper : Bool) (c : Char) :
    (if upper && c.isLower then c.toUpper else if !upper && c.isUpper then c.toLower else c)
    = (if upper && c.toLower.isLower then c.toLower.toUpper
       else if !upper && c.toLower.isUpper then c.toLower.toLower else c.toLower) := by
  cases hu : c.isUpper
  · rw [toLower_of_not_upper c hu]
    simp [hu]
  · obtain ⟨t1, t2, t3, t4, -, -, -⟩ := upper_table c (upper_mem c hu)
    cases upper <;> simp [t1, t2, t3, t4, hu]

theorem canonLoop_lower (upper : Bool) (l : List Char) :
    canonLoop upper l = canonLoop upper (l.map Char.toLower) := by
  induction l generalizing upper with
  | nil => rfl
  | cons c cs ih =>
    simp only [canonLoop, List.map_cons]
    rw [← canonStep_lower upper c]
    exact congrArg _ (ih _)

theorem valid_of_lower_valid (c : Char) (h : validHeaderFieldByte c.toLower = true) :
    validHeaderFieldByte c = true := by
  cases hu : c.isUpper
  · rw [toLower_of_not_upper c hu] at h; exact h
  · exact (upper_table c (upper_mem c hu)).2.2.2.2.1

theorem canonStep_toLower (upper : Bool) (c : Char) :
    (if upper && c.isLower then c.toUpper else if !upper && c.isUpper then c.toLower else c).toLower
    = c.toLower := by
  cases hu : c.isUpper
  · cases hl : c.isLower
    · simp
    · obtain ⟨-, t2, -, t4, -, -⟩ := lower_table c (lower_mem c hl)
      cases upper <;> simp [t2, t4]
  · obtain ⟨-, -, t3, t4, -, -, -⟩ := upper_table c (upper_mem c hu)
    have : c.toLower.toLower = c.toLower := toLower_of_not_upper _ t4
    cases upper <;> simp [t3, this]

theorem canonLoop_map_toLower (upper : Bool) (l : List Char) :
    (canonLoop upper l).map Char.toLower = l.map Char.toLower := by
  induction l generalizing upper with
  | nil => rfl
  | cons c cs ih =>
    simp only [canonLoop, List.map_cons]
    rw [canonStep_toLower upper c, ih]

/-- A canonical key that matches `User-Agent` ignoring letter case is `User-Agent`. -/
theorem canonical_userAgent (x : String)
    (h : asciiLower (canonicalMIMEHeaderKey x) = "user-agent") :
    canonicalMIMEHeaderKey x = "User-Agent" := by
  have hx : (x.data.map Char.toLower) = "user-agent".data := by
    unfold canonicalMIMEHeaderKey at h
    split at h
    · have := congrArg String.data h
      simp only [asciiLower, canonLoop_map_toLower] at this
      exact this
    · exact congrArg String.data h
  have hall : x.data.all validHeaderFieldByte = true := by
    rw [List.all_eq_true]
    intro c hc
    apply valid_of_lower_valid
    have hm : c.toLower ∈ x.data.map Char.toLower := List.mem_map_of_mem _ hc
    rw [hx] at hm
    revert hm
    generalize c.toLower = d
    revert d
    decide
  unfold canonicalMIMEHeaderKey
  rw [if_pos hall, canonLoop_lower, hx]
  decide

/-! ## The header map -/

theorem lookup_filter_ne (h : Header) (k k2 : String) (hne : k2 ≠ k) :
    List.lookup k2 (h.filter (fun e => e.1 != k)) = List.lookup k2 h := by
  induction h with
  | nil => rfl
  | cons e t ih =>
    obtain ⟨a, b⟩ := e
    by_cases hak : a = k
    · subst hak
      have h1 : (k2 == a) = false := by simpa using hne
      simp [List.filter, List.lookup, h1, ih]
    · have h2 : (a != k) = true := by simpa using hak
      simp only [List.filter, h2, List.lookup]
      rw [ih]

theorem values_put_same (h : Header) (k : String) (vs : List String) :
    (h.put k vs).values k = vs := by
  simp [Header.values, Header.put, List.lookup]

theorem values_put_ne (h : Header) (k k2 : String) (vs : List String) (hne : k2 ≠ k) :
    (h.put k vs).values k2 = h.values k2 := by
  have h1 : (k2 == k) = false := by simpa using hne
  simp [Header.values, Header.put, List.lookup, h1, lookup_filter_ne h k k2 hne]

theorem entries_put_same (h : Header) (k : String) (vs : List String) :
    (h.put k vs).filter (fun e => e.1 == k) = [(k, vs)] := by
  simp [Header.put, List.filter_filter]

theorem entries_put_ne (h : Header) (k k2 : String) (vs : List String) (hne : k ≠ k2) :
    (h.put k vs).filter (fun e => e.1 == k2) = h.filter (fun e => e.1 == k2) := by
  have h1 : (k == k2) = false := by simpa using hne
  simp only [Header.put, List.filter, h1, List.filter_filter]
  congr 1
  funext e
  by_cases he : e.1 = k2
  · subst he; simp; exact fun h => hne h.symm
  · simp [he]

theorem canonicalKeys_put (h : Header) (x : String) (vs : List String)
    (hk : CanonicalKeys h) : CanonicalKeys (h.put (canonicalMIMEHeaderKey x) vs) := by
  intro e he
  simp only [Header.put, List.mem_cons, List.mem_filter] at he
  rcases he with rfl | ⟨he, -⟩
  · exact ⟨x, rfl⟩
  · exact hk e he

theorem canonicalKeys_addHeader (req : Request) (header : String)
    (hk : CanonicalKeys req.Header) : CanonicalKeys (addHeader req header).Header := by
  unfold addHeader
  simp only
  split
  · exact canonicalKeys_put _ _ _ hk
  · exact hk

theorem canonicalKeys_foldl_addHeader (hs : List String) (req : Request)
    (hk : CanonicalKeys req.Header) : CanonicalKeys (hs.foldl addHeader req).Header := by
  induction hs generalizing req with
  | nil => exact hk
  | cons a t ih => exact ih _ (canonicalKeys_addHeader req a hk)

theorem userAgentIs_set (h : Header) (ua : String) (hk : CanonicalKeys h) :
    UserAgentIs ua (h.Set "User-Agent" ua) := by
  have hc : canonicalMIMEHeaderKey "User-Agent" = "User-Agent" := by decide
  refine ⟨?_, ?_, ?_⟩
  · unfold Header.Set; rw [hc]; exact entries_put_same _ _ _
  · unfold Header.Set; rw [hc]; exact values_put_same _ _ _
  · exact canonicalKeys_put _ _ _ hk

theorem userAgentIs_set_other (h : Header) (ua key v : String)
    (hne : canonicalMIMEHeaderKey key ≠ "User-Agent") (hu : UserAgentIs ua h) :
    UserAgentIs ua (h.Set key v) := by
  obtain ⟨h1, h2, h3⟩ := hu
  refine ⟨?_, ?_, ?_⟩
  · unfold Header.Set; rw [entries_put_ne _ _ _ _ hne]; exact h1
  · unfold Header.Set; rw [values_put_ne _ _ _ _ (Ne.symm hne)]; exact h2
  · exact canonicalKeys_put _ _ _ h3

theorem userAgentIs_addCookie (env : Env) (req : Request) (ua cookie : String)
    (hu : UserAgentIs ua req.Header) : UserAgentIs ua (addCookie env req cookie).Header := by
  have hc : canonicalMIMEHeaderKey "Cookie" ≠ "User-Agent" := by decide
  unfold addCookie Request.AddCookie
  simp only
  split
  · split
    · exact userAgentIs_set_other _ _ _ _ hc hu
    · exact userAgentIs_set_other _ _ _ _ hc hu
  · exact hu

theorem userAgentIs_foldl_addCookie (env : Env) (cs : List String) (req : Request)
    (ua : String) (hu : UserAgentIs ua req.Header) :
    UserAgentIs ua (cs.foldl (addCookie env) req).Header := by
  induction cs generalizing req with
  | nil => exact hu
  | cons a t ih => exact ih _ (userAgentIs_addCookie env req ua a hu)

theorem userAgentIs_buildRequest (env : Env) (req : Request) (opts : options)
    (hk : CanonicalKeys req.Header) :
    UserAgentIs opts.userAgent (buildRequest env req opts).Header := by
  have ha : canonicalMIMEHeaderKey "Authorization" ≠ "User-Agent" := by decide
  have h1 := userAgentIs_foldl_addCookie env opts.cookies
    { opts.headers.foldl addHeader req with
      Header := (opts.headers.foldl addHeader req).Header.Set "User-Agent" opts.userAgent }
    opts.userAgent
    (userAgentIs_set _ _ (canonicalKeys_foldl_addHeader _ _ hk))
  unfold buildRequest
  simp only
  split
  · split
    · exact userAgentIs_set_other _ _ _ _ ha h1
    · exact h1
  · exact h1

theorem get_of_userAgentIs (ua : String) (h : Header) (hu : UserAgentIs ua h) :
    h.Get "User-Agent" = ua := by
  have hc : canonicalMIMEHeaderKey "User-Agent" = "User-Agent" := by decide
  unfold Header.Get
  rw [hc, hu.2.1]

theorem canonicalKeys_newRequest (method url : String) :
    CanonicalKeys (newRequest method url).Header := by
  intro e he
  simp [newRequest] at he

/-- The `User-Agent` value `testMethod` reads back from the request it built is the
configured one. -/
theorem sent_userAgent (env : Env) (url method : String) (opts : options) :
    (buildRequest env (newRequest method url) opts).Header.Get "User-Agent" = opts.userAgent :=
  get_of_userAgentIs _ _ (userAgentIs_buildRequest env _ opts (canonicalKeys_newRequest _ _))

/-! ## The classifier -/

theorem testMethod_response (env : Env) (url method : String) (opts : options) (resp : Response)
    (hreq : env.newRequestError method url = none)
    (hdo : env.clientDo (buildRequest env (newRequest method url) opts) = .ok resp) :
    testMethod env url method opts =
      classify env.noColor method opts.userAgent
        (env.elapsed (buildRequest env (newRequest method url) opts)) resp := by
  unfold testMethod
  rw [hreq]
  simp only [hdo]
  rw [sent_userAgent]

theorem ruleA_eq (method : String) (statusCode : Int) :
    ruleA method statusCode =
      (dangerousMethods method && (decide (statusCode ≥ 200) && decide (statusCode < 400))) := by
  simp [ruleA, Bool.and_assoc]

theorem ruleC_eq (method : String) (statusCode : Int) :
    ruleC method statusCode =
      (method != "GET" && method != "HEAD" && method != "OPTIONS" &&
        (statusCode == 200 || statusCode == 204)) := by
  simp only [ruleC, Bool.not_or, bne]

theorem classify_vulnerable (noColor : Bool) (method ua : String) (t : Int) (resp : Response) :
    (classify noColor method ua t resp).IsVulnerable =
      (ruleA method resp.StatusCode || ruleB method resp.StatusCode resp.Body ua ||
        ruleC method resp.StatusCode) := by
  rw [ruleA_eq, ruleC_eq]
  simp only [classify, ruleB]
  split_ifs <;> simp_all

theorem classify_description (noColor : Bool) (method ua : String) (t : Int) (resp : Response) :
    (classify noColor method ua t resp).VulnDescription =
      renderedDescription noColor method resp.StatusCode resp.Body ua := by
  simp only [renderedDescription]
  rw [ruleA_eq, ruleC_eq]
  simp only [classify, ruleB, tamperingText, dangerousText, tracingText]
  split_ifs <;> rfl

theorem ruleB_imp (method : String) (statusCode : Int) (body ua : String)
    (h : ruleB method statusCode body ua = true) :
    ruleA method statusCode = true ∧ ruleC method statusCode = true := by
  simp only [ruleB, Bool.and_eq_true, beq_iff_eq] at h
  obtain ⟨⟨rfl, rfl⟩, -⟩ := h
  decide

theorem classify_eq_withoutTraceRule (noColor : Bool) (method ua : String) (t : Int)
    (resp : Response) :
    classify noColor method ua t resp = classifyWithoutTraceRule noColor method t resp := by
  simp only [classify, classifyWithoutTraceRule]
  split_ifs <;> simp_all

theorem sprintfHiRed_tampering_ne (noColor : Bool) (method : String) :
    sprintfHiRed noColor (tamperingText method) ≠ tracingText := by
  intro h
  have h2 := congrArg (fun s => s.data.head?) h
  cases noColor <;> simp [sprintfHiRed, tamperingText, tracingText] at h2

theorem sprintfHiRed_dangerous_ne (noColor : Bool) (method : String) :
    sprintfHiRed noColor (dangerousText method) ≠ tracingText := by
  intro h
  have h2 := congrArg (fun s => s.data.head?) h
  cases noColor <;> simp [sprintfHiRed, dangerousText, tracingText] at h2

theorem renderedDescription_ne_tracing (noColor : Bool) (method : String) (statusCode : Int)
    (body ua : String) : renderedDescription noColor method statusCode body ua ≠ tracingText := by
  unfold renderedDescription
  split_ifs with h1 h2 h3
  · exact sprintfHiRed_tampering_ne _ _
  · exact absurd (ruleB_imp _ _ _ _ h2).2 h1
  · exact sprintfHiRed_dangerous_ne _ _
  · decide

theorem renderedDescription_noColor (method : String) (statusCode : Int) (body ua : String) :
    renderedDescription true method statusCode body ua =
      specDescription method statusCode body ua := by
  simp [renderedDescription, specDescription, sprintfHiRed]

theorem testMethod_ne_tracing (env : Env) (url m : String) (opts : options) :
    (testMethod env url m opts).VulnDescription ≠
      "TRACE method enabled and echoing request headers (potential Cross-Site Tracing vulnerability)" := by
  cases hreq : env.newRequestError m url with
  | some e =>
    have hval : (testMethod env url m opts).VulnDescription = "" := by
      simp only [testMethod, hreq]
    rw [hval]
    decide
  | none =>
    cases hdo : env.clientDo (buildRequest env (newRequest m url) opts) with
    | error err =>
      have hval : (testMethod env url m opts).VulnDescription = "" := by
        simp only [testMethod, hreq, hdo]
      rw [hval]
      decide
    | ok resp =>
      rw [testMethod_response env url m opts resp hreq hdo, classify_description]
      exact renderedDescription_ne_tracing _ _ _ _ _

theorem dangerousMethods_iff (method : String) :
    dangerousMethods method = true ↔ method ∈ dangerousSet := by
  simp [dangerousMethods, dangerousSet, or_assoc]

/-! ## Claims about the classifier -/

/-- C1 fails as stated: with colour output enabled, POST answered 200 is reported with
a description that is not the bare verb-tampering text. -/
theorem verbTampering_plain_counterexample :
    (fixedServer false 200 "200 OK" "").newRequestError "POST" "https://example.com" = none ∧
    (testMethod (fixedServer false 200 "200 OK" "") "https://example.com" "POST"
        defaultOptions).StatusCode = 200 ∧
    (testMethod (fixedServer false 200 "200 OK" "") "https://example.com" "POST"
        defaultOptions).VulnDescription
      = "\x1b[91mPotential HTTP verb tampering vulnerability with method POST\x1b[0m" ∧
    (testMethod (fixedServer false 200 "200 OK" "") "https://example.com" "POST"
        defaultOptions).VulnDescription
      ≠ "Potential HTTP verb tampering vulnerability with method " ++ "POST" := by
  decide

/-- C1, amended: for a method other than GET, HEAD and OPTIONS and a response with
status 200 or 204, the result is vulnerable and its description is the verb-tampering
text as rendered by the colour call, whatever body and User-Agent are and whichever
other rule matched; with colour output disabled it is exactly the text followed by the
method name. -/
theorem testMethod_verbTampering (env : Env) (url method : String) (opts : options)
    (resp : Response)
    (hreq : env.newRequestError method url = none)
    (hdo : env.clientDo (buildRequest env (newRequest method url) opts) = .ok resp)
    (hm : method ≠ "GET" ∧ method ≠ "HEAD" ∧ method ≠ "OPTIONS")
    (hs : resp.StatusCode = 200 ∨ resp.StatusCode = 204) :
    (testMethod env url method opts).IsVulnerable = true ∧
    (testMethod env url method opts).VulnDescription =
      sprintfHiRed env.noColor
        ("Potential HTTP verb tampering vulnerability with method " ++ method) ∧
    (env.noColor = true → (testMethod env url method opts).VulnDescription =
      "Potential HTTP verb tampering vulnerability with method " ++ method) := by
  have hC : ruleC method resp.StatusCode = true := by
    obtain ⟨h1, h2, h3⟩ := hm
    rcases hs with h | h <;> simp [ruleC, h, h1, h2, h3]
  have hd : (testMethod env url method opts).VulnDescription =
      sprintfHiRed env.noColor
        ("Potential HTTP verb tampering vulnerability with method " ++ method) := by
    rw [testMethod_response env url method opts resp hreq hdo, classify_description,
      renderedDescription, if_pos hC, tamperingText]
  refine ⟨?_, hd, ?_⟩
  · rw [testMethod_response env url method opts resp hreq hdo, classify_vulnerable, hC]
    simp
  · intro hn
    rw [hd, hn]
    rfl

/-- Witness for C1: PATCH answered 204 with colour disabled. -/
theorem testMethod_verbTampering_witness :
    ("PATCH" ≠ "GET" ∧ "PATCH" ≠ "HEAD" ∧ "PATCH" ≠ "OPTIONS") ∧
    (testMethod (fixedServer true 204 "204 No Content" "") "https://example.com" "PATCH"
        defaultOptions).StatusCode = 204 ∧
    (testMethod (fixedServer true 204 "204 No Content" "") "https://example.com" "PATCH"
        defaultOptions).IsVulnerable = true ∧
    (testMethod (fixedServer true 204 "204 No Content" "") "https://example.com" "PATCH"
        defaultOptions).VulnDescription =
      "Potential HTTP verb tampering vulnerability with method PATCH" :=
  have h := testMethod_verbTampering (fixedServer true 204 "204 No Content" "")
    "https://example.com" "PATCH" defaultOptions
    { StatusCode := 204, Status := "204 No Content", Body := "" }
    rfl rfl (by decide) (by decide)
  ⟨by decide, rfl, h.1, (h.2.2 rfl).trans rfl⟩

/-- C2 fails as stated: with colour output enabled, PUT answered 301 is reported with a
description that is not the bare dangerous-method text. -/
theorem dangerous_plain_counterexample :
    "PUT" ∈ dangerousSet ∧
    (testMethod (fixedServer false 301 "301 Moved Permanently" "") "https://example.com" "PUT"
        defaultOptions).StatusCode = 301 ∧
    (testMethod (fixedServer false 301 "301 Moved Permanently" "") "https://example.com" "PUT"
        defaultOptions).VulnDescription
      = "\x1b[91mPotentially dangerous method PUT is allowed\x1b[0m" ∧
    (testMethod (fixedServer false 301 "301 Moved Permanently" "") "https://example.com" "PUT"
        defaultOptions).VulnDescription
      ≠ "Potentially dangerous method " ++ "PUT" ++ " is allowed" := by
  decide

/-- C2, amended: for a method of the dangerous set and a response with
`200 <= status < 400`, the result is dangerous and vulnerable; when the status is
neither 200 nor 204 its description is the dangerous-method text as rendered by the
colour call, which with colour output disabled is exactly the text. -/
theorem testMethod_dangerousAllowed (env : Env) (url method : String) (opts : options)
    (resp : Response)
    (hreq : env.newRequestError method url = none)
    (hdo : env.clientDo (buildRequest env (newRequest method url) opts) = .ok resp)
    (hm : method ∈ dangerousSet)
    (hs : 200 ≤ resp.StatusCode ∧ resp.StatusCode < 400) :
    (testMethod env url method opts).IsDangerous = true ∧
    (testMethod env url method opts).IsVulnerable = true ∧
    (resp.StatusCode ≠ 200 → resp.StatusCode ≠ 204 →
      (testMethod env url method opts).VulnDescription =
        sprintfHiRed env.noColor ("Potentially dangerous method " ++ method ++ " is allowed") ∧
      (env.noColor = true → (testMethod env url method opts).VulnDescription =
        "Potentially dangerous method " ++ method ++ " is allowed")) := by
  have hd : dangerousMethods method = true := (dangerousMethods_iff method).2 hm
  have hA : ruleA method resp.StatusCode = true := by
    simp [ruleA, hd, hs.1, hs.2]
  rw [testMethod_response env url method opts resp hreq hdo]
  refine ⟨hd, ?_, ?_⟩
  · rw [classify_vulnerable, hA]; simp
  · intro h1 h2
    have hC : ruleC method resp.StatusCode = false := by simp [ruleC, h1, h2]
    have hB : ruleB method resp.StatusCode resp.Body opts.userAgent = false := by
      simp [ruleB, h1]
    have hdesc : (classify env.noColor method opts.userAgent
        (env.elapsed (buildRequest env (newRequest method url) opts)) resp).VulnDescription =
        sprintfHiRed env.noColor ("Potentially dangerous method " ++ method ++ " is allowed") := by
      rw [classify_description, renderedDescription, hC, hB, hA]
      simp [dangerousText]
    refine ⟨hdesc, ?_⟩
    intro hn
    rw [hdesc, hn]
    rfl

/-- Witness for C2: DELETE answered 302 with colour disabled. -/
theorem testMethod_dangerousAllowed_witness :
    "DELETE" ∈ dangerousSet ∧
    (testMethod (fixedServer true 302 "302 Found" "") "https://example.com" "DELETE"
        defaultOptions).StatusCode = 302 ∧
    (testMethod (fixedServer true 302 "302 Found" "") "https://example.com" "DELETE"
        defaultOptions).IsDangerous = true ∧
    (testMethod (fixedServer true 302 "302 Found" "") "https://example.com" "DELETE"
        defaultOptions).IsVulnerable = true ∧
    (testMethod (fixedServer true 302 "302 Found" "") "https://example.com" "DELETE"
        defaultOptions).VulnDescription = "Potentially dangerous method DELETE is allowed" :=
  have h := testMethod_dangerousAllowed (fixedServer true 302 "302 Found" "")
    "https://example.com" "DELETE" defaultOptions
    { StatusCode := 302, Status := "302 Found", Body := "" }
    rfl rfl (by decide) (by decide)
  ⟨by decide, rfl, h.1, h.2.1, ((h.2.2 (by decide) (by decide)).2 rfl).trans rfl⟩

/-- C3 fails as stated: with colour output enabled, TRACE answered 200 with a body that
echoes the User-Agent is reported with a description that is neither the Cross-Site
Tracing text nor the bare verb-tampering text. -/
theorem trace_plain_counterexample :
    stringsContains "TRACE / HTTP/1.1 User-Agent: Go-HTTP-Method-Tester/1.0.0"
      defaultOptions.userAgent = true ∧
    (testMethod (fixedServer false 200 "200 OK"
        "TRACE / HTTP/1.1 User-Agent: Go-HTTP-Method-Tester/1.0.0") "https://example.com"
        "TRACE" defaultOptions).StatusCode = 200 ∧
    (testMethod (fixedServer false 200 "200 OK"
        "TRACE / HTTP/1.1 User-Agent: Go-HTTP-Method-Tester/1.0.0") "https://example.com"
        "TRACE" defaultOptions).VulnDescription
      = "\x1b[91mPotential HTTP verb tampering vulnerability with method TRACE\x1b[0m" ∧
    (testMethod (fixedServer false 200 "200 OK"
        "TRACE / HTTP/1.1 User-Agent: Go-HTTP-Method-Tester/1.0.0") "https://example.com"
        "TRACE" defaultOptions).VulnDescription
      ≠ "Potential HTTP verb tampering vulnerability with method TRACE" := by
  decide

/-- C3, amended: for TRACE answered 200 with a body containing the User-Agent that was
sent, the result is dangerous and vulnerable and its description is the verb-tampering
text for TRACE as rendered by the colour call (exactly that text with colour output
disabled), not the Cross-Site Tracing text. -/
theorem testMethod_trace_echo (env : Env) (url : String) (opts : options) (resp : Response)
    (hreq : env.newRequestError "TRACE" url = none)
    (hdo : env.clientDo (buildRequest env (newRequest "TRACE" url) opts) = .ok resp)
    (hs : resp.StatusCode = 200)
    (hb : stringsContains resp.Body opts.userAgent = true) :
    (testMethod env url "TRACE" opts).IsDangerous = true ∧
    (testMethod env url "TRACE" opts).IsVulnerable = true ∧
    (testMethod env url "TRACE" opts).VulnDescription =
      sprintfHiRed env.noColor "Potential HTTP verb tampering vulnerability with method TRACE" ∧
    (testMethod env url "TRACE" opts).VulnDescription ≠
      "TRACE method enabled and echoing request headers (potential Cross-Site Tracing vulnerability)" ∧
    (env.noColor = true → (testMethod env url "TRACE" opts).VulnDescription =
      "Potential HTTP verb tampering vulnerability with method TRACE") := by
  have hB : ruleB "TRACE" resp.StatusCode resp.Body opts.userAgent = true := by
    simp [ruleB, hs, hb]
  have hC : ruleC "TRACE" resp.StatusCode = true := (ruleB_imp _ _ _ _ hB).2
  have hd : (testMethod env url "TRACE" opts).VulnDescription =
      sprintfHiRed env.noColor
        "Potential HTTP verb tampering vulnerability with method TRACE" := by
    rw [testMethod_response env url "TRACE" opts resp hreq hdo, classify_description,
      renderedDescription, if_pos hC]
    rfl
  refine ⟨?_, ?_, hd, ?_, ?_⟩
  · rw [testMethod_response env url "TRACE" opts resp hreq hdo]
    rfl
  · rw [testMethod_response env url "TRACE" opts resp hreq hdo, classify_vulnerable, hC]
    simp
  · rw [hd]
    exact sprintfHiRed_tampering_ne env.noColor "TRACE"
  · intro hn
    rw [hd, hn]
    rfl

/-- Witness for C3: a server echoing the request, colour disabled. -/
theorem testMethod_trace_echo_witness :
    stringsContains "User-Agent: Go-HTTP-Method-Tester/1.0.0" defaultOptions.userAgent = true ∧
    (testMethod (fixedServer true 200 "200 OK" "User-Agent: Go-HTTP-Method-Tester/1.0.0")
        "https://example.com" "TRACE" defaultOptions).StatusCode = 200 ∧
    (testMethod (fixedServer true 200 "200 OK" "User-Agent: Go-HTTP-Method-Tester/1.0.0")
        "https://example.com" "TRACE" defaultOptions).IsDangerous = true ∧
    (testMethod (fixedServer true 200 "200 OK" "User-Agent: Go-HTTP-Method-Tester/1.0.0")
        "https://example.com" "TRACE" defaultOptions).IsVulnerable = true ∧
    (testMethod (fixedServer true 200 "200 OK" "User-Agent: Go-HTTP-Method-Tester/1.0.0")
        "https://example.com" "TRACE" defaultOptions).VulnDescription =
      "Potential HTTP verb tampering vulnerability with method TRACE" :=
  have h := testMethod_trace_echo
    (fixedServer true 200 "200 OK" "User-Agent: Go-HTTP-Method-Tester/1.0.0")
    "https://example.com" defaultOptions
    { StatusCode := 200, Status := "200 OK", Body := "User-Agent: Go-HTTP-Method-Tester/1.0.0" }
    rfl rfl rfl (by decide)
  ⟨by decide, rfl, h.1, h.2.1, h.2.2.2.2 rfl⟩

/-- C4 fails as stated: with colour output enabled, MKCOL answered 201 matches rule A
only, and the description is not the message the specification gives for rule A. -/
theorem last_rule_plain_counterexample :
    ruleA "MKCOL" 201 = true ∧
    ruleB "MKCOL" 201 "" defaultOptions.userAgent = false ∧
    ruleC "MKCOL" 201 = false ∧
    specDescription "MKCOL" 201 "" defaultOptions.userAgent =
      "Potentially dangerous method MKCOL is allowed" ∧
    (testMethod (fixedServer false 201 "201 Created" "") "https://example.com" "MKCOL"
        defaultOptions).StatusCode = 201 ∧
    (testMethod (fixedServer false 201 "201 Created" "") "https://example.com" "MKCOL"
        defaultOptions).VulnDescription
      = "\x1b[91mPotentially dangerous method MKCOL is allowed\x1b[0m" ∧
    (testMethod (fixedServer false 201 "201 Created" "") "https://example.com" "MKCOL"
        defaultOptions).VulnDescription
      ≠ specDescription "MKCOL" 201 "" defaultOptions.userAgent := by
  decide

/-- C4, amended: for a received response, `IsVulnerable` holds exactly when one of the
rules A, B, C holds; the description is the message of the last rule (order A, B, C)
that holds, the messages of rules A and C as rendered by the colour call, and is empty
when none holds; with colour output disabled it is the message the specification gives;
GET, HEAD and OPTIONS, and a non-dangerous method with a status other than 200 and 204,
are never reported vulnerable. -/
theorem testMethod_last_rule_wins (env : Env) (url method : String) (opts : options)
    (resp : Response)
    (hreq : env.newRequestError method url = none)
    (hdo : env.clientDo (buildRequest env (newRequest method url) opts) = .ok resp) :
    ((testMethod env url method opts).IsVulnerable = true ↔
      (ruleA method resp.StatusCode = true ∨
       ruleB method resp.StatusCode resp.Body opts.userAgent = true ∨
       ruleC method resp.StatusCode = true)) ∧
    (testMethod env url method opts).VulnDescription =
      renderedDescription env.noColor method resp.StatusCode resp.Body opts.userAgent ∧
    (env.noColor = true → (testMethod env url method opts).VulnDescription =
      specDescription method resp.StatusCode resp.Body opts.userAgent) ∧
    ((ruleA method resp.StatusCode = false ∧
       ruleB method resp.StatusCode resp.Body opts.userAgent = false ∧
       ruleC method resp.StatusCode = false) →
      (testMethod env url method opts).VulnDescription = "") ∧
    (method ∈ ["GET", "HEAD", "OPTIONS"] →
      (testMethod env url method opts).IsVulnerable = false ∧
      (testMethod env url method opts).VulnDescription = "") ∧
    (method ∉ dangerousSet → resp.StatusCode ≠ 200 → resp.StatusCode ≠ 204 →
      (testMethod env url method opts).IsVulnerable = false ∧
      (testMethod env url method opts).VulnDescription = "") := by
  rw [testMethod_response env url method opts resp hreq hdo, classify_vulnerable,
    classify_description]
  refine ⟨?_, rfl, ?_, ?_, ?_, ?_⟩
  · simp only [Bool.or_eq_true, or_assoc]
  · intro hn
    rw [hn]
    exact renderedDescription_noColor _ _ _ _
  · rintro ⟨hA, hB, hC⟩
    simp [renderedDescription, hA, hB, hC]
  · intro hm
    have h : ruleA method resp.StatusCode = false ∧
        ruleB method resp.StatusCode resp.Body opts.userAgent = false ∧
        ruleC method resp.StatusCode = false := by
      simp only [List.mem_cons, List.mem_singleton, List.not_mem_nil, or_false] at hm
      rcases hm with rfl | rfl | rfl <;> simp [ruleA, ruleB, ruleC, dangerousMethods]
    obtain ⟨hA, hB, hC⟩ := h
    simp [renderedDescription, hA, hB, hC]
  · intro hm h1 h2
    have hd : dangerousMethods method = false := by
      rw [← Bool.not_eq_true, dangerousMethods_iff]; exact hm
    have hA : ruleA method resp.StatusCode = false := by simp [ruleA, hd]
    have hB : ruleB method resp.StatusCode resp.Body opts.userAgent = false := by
      simp [ruleB, h1]
    have hC : ruleC method resp.StatusCode = false := by simp [ruleC, h1, h2]
    simp [renderedDescription, hA, hB, hC]

/-- Witness for C4: PROPFIND answered 207 with colour disabled, where only rule A holds. -/
theorem testMethod_last_rule_wins_witness :
    ruleA "PROPFIND" 207 = true ∧
    ruleB "PROPFIND" 207 "<multistatus/>" defaultOptions.userAgent = false ∧
    ruleC "PROPFIND" 207 = false ∧
    (testMethod (fixedServer true 207 "207 Multi-Status" "<multistatus/>")
        "https://example.com" "PROPFIND" defaultOptions).IsVulnerable = true ∧
    (testMethod (fixedServer true 207 "207 Multi-Status" "<multistatus/>")
        "https://example.com" "PROPFIND" defaultOptions).VulnDescription =
      specDescription "PROPFIND" 207 "<multistatus/>" defaultOptions.userAgent ∧
    specDescription "PROPFIND" 207 "<multistatus/>" defaultOptions.userAgent =
      "Potentially dangerous method PROPFIND is allowed" :=
  have h := testMethod_last_rule_wins (fixedServer true 207 "207 Multi-Status" "<multistatus/>")
    "https://example.com" "PROPFIND" defaultOptions
    { StatusCode := 207, Status := "207 Multi-Status", Body := "<multistatus/>" } rfl rfl
  ⟨by decide, by decide, by decide, h.1.2 (Or.inl (by decide)), h.2.2.1 rfl, by decide⟩

/-- C5: when `http.NewRequest` fails or `client.Do` returns an error, the result has
status code 0, is not vulnerable, has an empty description and content length 0, a
status starting with `Error: `, `IsDangerous` equal to membership of the method in the
dangerous set, and response time 0 when the request could not be constructed. -/
theorem testMethod_transport_failure (env : Env) (url method : String) (opts : options)
    (h : (∃ err, env.newRequestError method url = some err) ∨
         (∃ err, env.clientDo (buildRequest env (newRequest method url) opts) = .error err)) :
    (testMethod env url method opts).Method = method ∧
    (testMethod env url method opts).StatusCode = 0 ∧
    (testMethod env url method opts).IsVulnerable = false ∧
    (testMethod env url method opts).VulnDescription = "" ∧
    (testMethod env url method opts).ContentLength = 0 ∧
    (∃ err, (testMethod env url method opts).Status = "Error: " ++ err) ∧
    ((testMethod env url method opts).IsDangerous = true ↔ method ∈ dangerousSet) ∧
    (∀ err, env.newRequestError method url = some err →
      (testMethod env url method opts).ResponseTime = 0 ∧
      (testMethod env url method opts).Status = "Error: " ++ err) ∧
    (∀ err, env.newRequestError method url = none →
      env.clientDo (buildRequest env (newRequest method url) opts) = .error err →
      (testMethod env url method opts).ResponseTime =
        env.elapsed (buildRequest env (newRequest method url) opts) ∧
      (testMethod env url method opts).Status = "Error: " ++ err) := by
  cases hreq : env.newRequestError method url with
  | some e =>
    have hval : testMethod env url method opts =
        { Method := method, StatusCode := 0, Status := "Error: " ++ e, ResponseTime := 0,
          ContentLength := 0, IsDangerous := dangerousMethods method, IsVulnerable := false,
          VulnDescription := "" } := by
      simp only [testMethod, hreq]
    rw [hval]
    refine ⟨rfl, rfl, rfl, rfl, rfl, ⟨e, rfl⟩, dangerousMethods_iff method, ?_, ?_⟩
    · intro err he
      cases he
      exact ⟨rfl, rfl⟩
    · intro err he
      cases he
  | none =>
    rcases h with ⟨err, he⟩ | ⟨err, hdo⟩
    · rw [hreq] at he; cases he
    · have hval : testMethod env url method opts =
          { Method := method, StatusCode := 0, Status := "Error: " ++ err,
            ResponseTime := env.elapsed (buildRequest env (newRequest method url) opts),
            ContentLength := 0, IsDangerous := dangerousMethods method, IsVulnerable := false,
            VulnDescription := "" } := by
        simp only [testMethod, hreq, hdo]
      rw [hval]
      refine ⟨rfl, rfl, rfl, rfl, rfl, ⟨err, rfl⟩, dangerousMethods_iff method, ?_, ?_⟩
      · intro e he
        cases he
      · intro e _ he
        rw [hdo] at he
        cases he
        exact ⟨rfl, rfl⟩

/-- Witness for C5: DELETE against a refused connection. -/
theorem testMethod_transport_failure_witness :
    failingEnv.clientDo (buildRequest failingEnv (newRequest "DELETE" "https://example.com")
        defaultOptions) = .error "dial tcp 127.0.0.1:9: connect: connection refused" ∧
    testMethod failingEnv "https://example.com" "DELETE" defaultOptions =
      { Method := "DELETE", StatusCode := 0,
        Status := "Error: dial tcp 127.0.0.1:9: connect: connection refused",
        ResponseTime := 3, ContentLength := 0, IsDangerous := true, IsVulnerable := false,
        VulnDescription := "" } ∧
    (testMethod failingEnv "https://example.com" "DELETE" defaultOptions).StatusCode = 0 ∧
    (testMethod failingEnv "https://example.com" "DELETE" defaultOptions).IsVulnerable = false ∧
    (testMethod failingEnv "https://example.com" "DELETE" defaultOptions).IsDangerous = true :=
  have h := testMethod_transport_failure failingEnv "https://example.com" "DELETE" defaultOptions
    (Or.inr ⟨"dial tcp 127.0.0.1:9: connect: connection refused", rfl⟩)
  ⟨rfl, by decide, h.2.1, h.2.2.1, h.2.2.2.2.2.2.1.2 (by decide)⟩

/-- C10: the verdict for a received response depends only on the method and the status
code (for one colour setting): bodies and User-Agent values do not matter, the classifier
with the TRACE block deleted gives the same result, no input yields the Cross-Site
Tracing description, and rule B implies rules A and C. -/
theorem verdict_ignores_body_and_userAgent (env1 env2 : Env) (url1 url2 method : String)
    (opts1 opts2 : options) (resp1 resp2 : Response)
    (hc : env1.noColor = env2.noColor)
    (hreq1 : env1.newRequestError method url1 = none)
    (hdo1 : env1.clientDo (buildRequest env1 (newRequest method url1) opts1) = .ok resp1)
    (hreq2 : env2.newRequestError method url2 = none)
    (hdo2 : env2.clientDo (buildRequest env2 (newRequest method url2) opts2) = .ok resp2)
    (hs : resp1.StatusCode = resp2.StatusCode) :
    ((testMethod env1 url1 method opts1).IsDangerous =
        (testMethod env2 url2 method opts2).IsDangerous ∧
     (testMethod env1 url1 method opts1).IsVulnerable =
        (testMethod env2 url2 method opts2).IsVulnerable ∧
     (testMethod env1 url1 method opts1).VulnDescription =
        (testMethod env2 url2 method opts2).VulnDescription) ∧
    testMethod env1 url1 method opts1 =
      classifyWithoutTraceRule env1.noColor method
        (env1.elapsed (buildRequest env1 (newRequest method url1) opts1)) resp1 ∧
    (∀ (env : Env) (url m : String) (opts : options),
      (testMethod env url m opts).VulnDescription ≠
        "TRACE method enabled and echoing request headers (potential Cross-Site Tracing vulnerability)") ∧
    (∀ (m : String) (statusCode : Int) (body ua : String),
      ruleB m statusCode body ua = true →
        ruleA m statusCode = true ∧ ruleC m statusCode = true) := by
  have e1 := testMethod_response env1 url1 method opts1 resp1 hreq1 hdo1
  have e2 := testMethod_response env2 url2 method opts2 resp2 hreq2 hdo2
  refine ⟨?_, ?_, ?_, ruleB_imp⟩
  · rw [e1, e2, classify_eq_withoutTraceRule, classify_eq_withoutTraceRule]
    simp [classifyWithoutTraceRule, hc, hs]
  · rw [e1, classify_eq_withoutTraceRule]
  · exact testMethod_ne_tracing

/-- Witness for C10: TRACE answered 200 once with an echoing body and once with an empty
body, under different User-Agent values. -/
theorem verdict_ignores_body_and_userAgent_witness :
    stringsContains "User-Agent: Go-HTTP-Method-Tester/1.0.0" defaultOptions.userAgent = true ∧
    stringsContains "" "curl/8.0" = false ∧
    (testMethod (fixedServer false 200 "200 OK" "User-Agent: Go-HTTP-Method-Tester/1.0.0")
        "https://a.example" "TRACE" defaultOptions).VulnDescription =
    (testMethod (fixedServer false 200 "200 OK" "") "https://b.example" "TRACE"
        { defaultOptions with userAgent := "curl/8.0" }).VulnDescription :=
  ⟨by decide, by decide,
   (verdict_ignores_body_and_userAgent
    (fixedServer false 200 "200 OK" "User-Agent: Go-HTTP-Method-Tester/1.0.0")
    (fixedServer false 200 "200 OK" "") "https://a.example" "https://b.example" "TRACE"
    defaultOptions { defaultOptions with userAgent := "curl/8.0" }
    { StatusCode := 200, Status := "200 OK", Body := "User-Agent: Go-HTTP-Method-Tester/1.0.0" }
    { StatusCode := 200, Status := "200 OK", Body := "" }
    rfl rfl rfl rfl rfl rfl).1.2.2⟩

/-! ## Claims about request construction -/

theorem cutAtFirst_none (sep : Char) (l : List Char) (h : sep ∉ l) :
    cutAtFirst sep l = none := by
  induction l with
  | nil => rfl
  | cons c cs ih =>
    simp only [List.mem_cons, not_or] at h
    simp only [cutAtFirst, if_neg (Ne.symm h.1), ih h.2]

theorem cutAtFirst_append (sep : Char) (a b : List Char) (h : sep ∉ a) :
    cutAtFirst sep (a ++ sep :: b) = some (a, b) := by
  induction a with
  | nil => simp [cutAtFirst]
  | cons c cs ih =>
    simp only [List.mem_cons, not_or] at h
    have hi := ih h.2
    show cutAtFirst sep (c :: (cs ++ sep :: b)) = _
    simp only [cutAtFirst, if_neg (Ne.symm h.1), hi]

theorem cutAtFirst_isSome (sep : Char) (l : List Char) (h : sep ∈ l) :
    ∃ a b, cutAtFirst sep l = some (a, b) := by
  induction l with
  | nil => cases h
  | cons c cs ih =>
    by_cases hc : c = sep
    · exact ⟨[], cs, by simp [cutAtFirst, hc]⟩
    · have hm : sep ∈ cs := by
        rcases List.mem_cons.1 h with h | h
        · exact absurd h.symm hc
        · exact h
      obtain ⟨a, b, hab⟩ := ih hm
      exact ⟨c :: a, b, by simp [cutAtFirst, hc, hab]⟩

theorem splitN2_length (s : String) (sep : Char) :
    ((stringsSplitN2 s sep).length = 2) ↔ sep ∈ s.data := by
  unfold stringsSplitN2
  constructor
  · intro h
    by_contra hn
    rw [cutAtFirst_none sep s.data hn] at h
    simp at h
  · intro h
    obtain ⟨a, b, hab⟩ := cutAtFirst_isSome sep s.data h
    rw [hab]
    rfl

theorem addHeader_malformed (req : Request) (header : String) (h : ':' ∉ header.data) :
    addHeader req header = req := by
  unfold addHeader
  simp only
  rw [if_neg]
  rwa [splitN2_length]

theorem addCookie_malformed (env : Env) (req : Request) (cookie : String)
    (h : '=' ∉ cookie.data) : addCookie env req cookie = req := by
  unfold addCookie
  simp only
  rw [if_neg]
  rwa [splitN2_length]

theorem foldl_filter_id {α β : Type} (f : β → α → β) (p : α → Bool)
    (hf : ∀ b a, p a = false → f b a = b) (l : List α) (b : β) :
    (l.filter p).foldl f b = l.foldl f b := by
  induction l generalizing b with
  | nil => rfl
  | cons a t ih =>
    cases hp : p a
    · simp only [List.filter, hp, List.foldl, hf b a hp, ih]
    · simp only [List.filter, hp, List.foldl, ih]

theorem buildRequest_filter (env : Env) (req : Request) (opts : options) :
    buildRequest env req
      { opts with headers := opts.headers.filter (fun h => h.data.contains ':'),
                  cookies := opts.cookies.filter (fun c => c.data.contains '=') } =
    buildRequest env req opts := by
  unfold buildRequest
  simp only
  rw [foldl_filter_id addHeader _ (fun b a h => addHeader_malformed b a (by simpa using h)),
    foldl_filter_id (addCookie env) _
      (fun b a h => addCookie_malformed env b a (by simpa using h))]

theorem addHeader_eq_parse (req : Request) (header : String) :
    addHeader req header =
      (parseHeader header).elim req (fun e => { req with Header := req.Header.Add e.1 e.2 }) := by
  unfold addHeader parseHeader stringsSplitN2
  cases h : cutAtFirst ':' header.data with
  | none => rfl
  | some ab => rfl

theorem addCookie_eq_parse (env : Env) (req : Request) (cookie : String) :
    addCookie env req cookie =
      (parseCookie cookie).elim req (fun e => req.AddCookie env e.1 e.2) := by
  unfold addCookie parseCookie stringsSplitN2
  cases h : cutAtFirst '=' cookie.data with
  | none => rfl
  | some ab => rfl

theorem foldl_filterMap_eq {α β γ : Type} (f : β → α → β) (g : α → Option γ) (k : β → γ → β)
    (hf : ∀ b a, f b a = (g a).elim b (k b)) (l : List α) (b : β) :
    l.foldl f b = (l.filterMap g).foldl k b := by
  induction l generalizing b with
  | nil => rfl
  | cons a t ih =>
    have h := hf b a
    cases hg : g a with
    | none =>
      rw [hg, Option.elim_none] at h
      simp only [List.foldl, List.filterMap_cons, hg, h, ih]
    | some c =>
      rw [hg, Option.elim_some] at h
      simp only [List.foldl, List.filterMap_cons, hg, h, ih]

theorem buildRequest_eq_requestFromEntries (env : Env) (req : Request) (opts : options) :
    buildRequest env req opts = requestFromEntries env req opts := by
  unfold buildRequest requestFromEntries
  simp only
  rw [foldl_filterMap_eq addHeader parseHeader
      (fun r e => { r with Header := r.Header.Add e.1 e.2 }) addHeader_eq_parse,
    foldl_filterMap_eq (addCookie env) parseCookie
      (fun r e => r.AddCookie env e.1 e.2) (addCookie_eq_parse env)]
  by_cases ha : opts.auth = ""
  · simp [ha]
  · simp only [bne_iff_ne, ne_eq, ha, not_false_eq_true, if_true, if_false, stringsSplitN2]
    cases h : cutAtFirst ':' opts.auth.data with
    | none => rfl
    | some ab => rfl

/-- C7: in the request `testMethod` hands to the client, the header map has exactly one
`User-Agent` entry, holding the single configured value, whatever custom headers were
supplied; no other key matches `User-Agent` in another letter case. -/
theorem sent_request_userAgent (env : Env) (url method : String) (opts : options) :
    (buildRequest env (newRequest method url) opts).Header.filter
        (fun e => e.1 == "User-Agent") = [("User-Agent", [opts.userAgent])] ∧
    (buildRequest env (newRequest method url) opts).Header.values "User-Agent"
        = [opts.userAgent] ∧
    (buildRequest env (newRequest method url) opts).Header.Get "User-Agent"
        = opts.userAgent ∧
    (∀ e ∈ (buildRequest env (newRequest method url) opts).Header,
        asciiLower e.1 = "user-agent" → e = ("User-Agent", [opts.userAgent])) ∧
    (buildRequest (fixedServer true 200 "200 OK" "") (newRequest "GET" "https://example.com")
        { defaultOptions with
          headers := ["user-agent: first", "USER-AGENT:second", "X-Trace: 1"],
          userAgent := "configured/1.0" }).Header
      = [("User-Agent", ["configured/1.0"]), ("X-Trace", ["1"])] := by
  have hu := userAgentIs_buildRequest env (newRequest method url) opts
    (canonicalKeys_newRequest method url)
  refine ⟨hu.1, hu.2.1, get_of_userAgentIs _ _ hu, ?_, by decide⟩
  intro e he hl
  obtain ⟨x, hx⟩ := hu.2.2 e he
  have hk : e.1 = "User-Agent" := by
    rw [hx] at hl ⊢
    exact canonical_userAgent x hl
  have hm : e ∈ (buildRequest env (newRequest method url) opts).Header.filter
      (fun e => e.1 == "User-Agent") := by
    rw [List.mem_filter]
    exact ⟨he, by simp [hk]⟩
  rw [hu.1] at hm
  simpa using hm

/-- C8: a header without `:` and a cookie without `=` leave the request unchanged; a
header `name:value` adds the trimmed name and value, a cookie `name=value` is added
with that name and value, split at the first separator; the request `testMethod` builds
and hands to the client is the one obtained by adding the well-formed headers in the
order supplied, setting the User-Agent, and adding the well-formed cookies in the order
supplied; it equals the request built from the lists without the malformed entries, and
so does the probe result; `BadHeaderNoColon` adds nothing and the probe proceeds. -/
theorem malformed_entries_dropped :
    (∀ (req : Request) (header : String), ':' ∉ header.data → addHeader req header = req) ∧
    (∀ (env : Env) (req : Request) (cookie : String), '=' ∉ cookie.data →
      addCookie env req cookie = req) ∧
    (∀ (req : Request) (name value : String), ':' ∉ name.data →
      addHeader req (name ++ ":" ++ value) =
        { req with Header := req.Header.Add (stringsTrimSpace name) (stringsTrimSpace value) }) ∧
    (∀ (env : Env) (req : Request) (name value : String), '=' ∉ name.data →
      addCookie env req (name ++ "=" ++ value) = req.AddCookie env name value) ∧
    (∀ (env : Env) (req : Request) (opts : options),
      buildRequest env req opts =
        buildRequest env req
          { opts with headers := opts.headers.filter (fun h => h.data.contains ':'),
                      cookies := opts.cookies.filter (fun c => c.data.contains '=') }) ∧
    (∀ (env : Env) (url method : String) (opts : options),
      testMethod env url method opts =
        testMethod env url method
          { opts with headers := opts.headers.filter (fun h => h.data.contains ':'),
                      cookies := opts.cookies.filter (fun c => c.data.contains '=') }) ∧
    (∀ (env : Env) (url method : String) (opts : options),
      testMethod env url method { opts with headers := ["BadHeaderNoColon"] } =
        testMethod env url method { opts with headers := [] }) ∧
    (∀ (env : Env) (req : Request) (opts : options),
      buildRequest env req opts = requestFromEntries env req opts) ∧
    (∀ (env : Env) (url method : String) (opts : options) (resp : Response),
      env.newRequestError method url = none →
      env.clientDo (requestFromEntries env (newRequest method url) opts) = .ok resp →
      testMethod env url method opts =
        classify env.noColor method opts.userAgent
          (env.elapsed (requestFromEntries env (newRequest method url) opts)) resp) ∧
    (∀ (env : Env) (url method : String) (opts : options) (err : String),
      env.newRequestError method url = none →
      env.clientDo (requestFromEntries env (newRequest method url) opts) = .error err →
      (testMethod env url method opts).Status = "Error: " ++ err) ∧
    (buildRequest (strictServer []) (newRequest "GET" "https://example.com")
        mixedOptions).Header =
      [("Cookie", ["sid=abc; theme=a=b"]), ("User-Agent", ["Go-HTTP-Method-Tester/1.0.0"]),
       ("Accept", ["*/*"]), ("X-Probe", ["1", "2:3"])] ∧
    (testMethod
        (strictServer [("Cookie", ["sid=abc; theme=a=b"]),
          ("User-Agent", ["Go-HTTP-Method-Tester/1.0.0"]), ("Accept", ["*/*"]),
          ("X-Probe", ["1", "2:3"])])
        "https://example.com" "GET" mixedOptions).StatusCode = 200 ∧
    (testMethod (strictServer [("User-Agent", ["Go-HTTP-Method-Tester/1.0.0"])])
        "https://example.com" "GET"
        { defaultOptions with headers := ["BadHeaderNoColon"] }).StatusCode = 200 := by
  refine ⟨addHeader_malformed, addCookie_malformed, ?_, ?_, ?_, ?_, ?_,
    buildRequest_eq_requestFromEntries, ?_, ?_, by decide, by decide, by decide⟩
  · intro req name value h
    have hc : cutAtFirst ':' (name ++ ":" ++ value).data = some (name.data, value.data) := by
      have := cutAtFirst_append ':' name.data value.data h
      simpa [String.data_append] using this
    simp only [addHeader, stringsSplitN2, hc]
    rfl
  · intro env req name value h
    have hc : cutAtFirst '=' (name ++ "=" ++ value).data = some (name.data, value.data) := by
      have := cutAtFirst_append '=' name.data value.data h
      simpa [String.data_append] using this
    simp only [addCookie, stringsSplitN2, hc]
    rfl
  · intro env req opts
    exact (buildRequest_filter env req opts).symm
  · intro env url method opts
    unfold testMethod
    simp only [buildRequest_filter]
  · intro env url method opts
    rfl
  · intro env url method opts resp hreq hdo
    rw [← buildRequest_eq_requestFromEntries] at hdo ⊢
    exact testMethod_response env url method opts resp hreq hdo
  · intro env url method opts err hreq hdo
    rw [← buildRequest_eq_requestFromEntries] at hdo
    simp only [testMethod, hreq, hdo]

/-! ## The scan of one URL -/

theorem sum_map_set {α M : Type} [AddCommMonoid M] (f : α → M) (l : List α) (i : Nat)
    (a b : α) (h : l.get? i = some a) :
    ((l.set i b).map f).sum + f a = (l.map f).sum + f b := by
  induction l generalizing i with
  | nil => simp at h
  | cons x t ih =>
    cases i with
    | zero =>
      simp only [List.get?_cons_zero, Option.some.injEq] at h
      subst h
      simp only [List.set_cons_zero, List.map_cons, List.sum_cons]
      abel
    | succ j =>
      simp only [List.get?_cons_succ] at h
      simp only [List.set_cons_succ, List.map_cons, List.sum_cons, add_assoc, ih j h]

theorem map_method_set (l : List Goroutine) (i : Nat) (g : Goroutine) (st : Stage)
    (h : l.get? i = some g) :
    (l.set i ⟨g.method, st⟩).map Goroutine.method = l.map Goroutine.method := by
  induction l generalizing i with
  | nil => simp at h
  | cons x t ih =>
    cases i with
    | zero =>
      simp only [List.get?_cons_zero, Option.some.injEq] at h
      subst h
      simp
    | succ j =>
      simp only [List.get?_cons_succ] at h
      simp only [List.set_cons_succ, List.map_cons, ih j h]

theorem keptOf_append (env : Env) (url : String) (opts : options) (a b : List String) :
    (↑(keptOf env url opts (a ++ b)) : Multiset MethodResult) =
      ↑(keptOf env url opts a) + ↑(keptOf env url opts b) := by
  simp [keptOf, List.map_append, List.filter_append]

theorem scanInv_init (env : Env) (url : String) (opts : options) (methods : List String) :
    ScanInv env url opts methods (initScan methods) where
  permits := rfl
  capacity := Nat.zero_le _
  counter := rfl
  order := rfl
  kept := by simp [initScan, mainMethod]
  final := by intro h; cases h

theorem scanInv_step (env : Env) (url : String) (opts : options) (methods : List String)
    (s t : ScanState) (a : Action) (hs : ScanInv env url opts methods s)
    (ht : step env url opts s a = some t) : ScanInv env url opts methods t := by
  obtain ⟨pending, main, sem, wg, gs, results⟩ := s
  obtain ⟨h1, h2, h3, h4, h5, h6⟩ := hs
  simp only at h1 h2 h3 h4 h5 h6
  cases a with
  | send =>
    cases main <;> cases pending <;> simp only [step] at ht <;> try cases ht
    rename_i m rest
    split at ht
    · rename_i hlt
      cases ht
      simp only [mainPermit, mainAdded, mainMethod, Nat.add_zero, List.append_nil,
        List.nil_append] at h1 h3 h4 h5
      refine ⟨?_, ?_, ?_, ?_, ?_, ?_⟩
      · simp only [mainPermit]; omega
      · simp only; omega
      · simp only [mainAdded]; omega
      · simpa [mainMethod] using h4
      · simpa [mainMethod] using h5
      · intro h; cases h
    · cases ht
  | add =>
    cases main <;> simp only [step] at ht <;> try cases ht
    rename_i m
    simp only [mainPermit, mainAdded, mainMethod] at h1 h3 h4 h5
    refine ⟨?_, ?_, ?_, ?_, ?_, ?_⟩
    · simp only [mainPermit]; omega
    · exact h2
    · simp only [mainAdded]; omega
    · simpa [mainMethod] using h4
    · simpa [mainMethod] using h5
    · intro h; cases h
  | spawn =>
    cases main <;> simp only [step] at ht <;> try cases ht
    rename_i m
    simp only [mainPermit, mainAdded, mainMethod] at h1 h3 h4 h5
    refine ⟨?_, ?_, ?_, ?_, ?_, ?_⟩
    · simp only [mainPermit, List.map_append, List.sum_append, List.map_cons, List.map_nil,
        List.sum_cons, List.sum_nil, holdsPermit]
      omega
    · exact h2
    · simp only [mainAdded, List.map_append, List.sum_append, List.map_cons, List.map_nil,
        List.sum_cons, List.sum_nil, notDone]
      omega
    · simpa [mainMethod] using h4
    · rw [← h5, keptOf_append env url opts [m] pending]
      simp only [mainMethod, List.map_append, List.sum_append, List.map_cons, List.map_nil,
        List.sum_cons, List.sum_nil, owed, List.nil_append, add_zero, keptOf]
      abel
    · intro h; cases h
  | probeReturns i =>
    simp only [step] at ht
    cases hg : gs.get? i with
    | none => simp only [hg] at ht; cases ht
    | some g =>
      obtain ⟨m, st⟩ := g
      simp only [hg] at ht
      cases st <;> simp only at ht <;> try cases ht
      have e1 := sum_map_set holdsPermit gs i ⟨m, .probing⟩
        ⟨m, .tested (testMethod env url m opts)⟩ hg
      have e3 := sum_map_set notDone gs i ⟨m, .probing⟩
        ⟨m, .tested (testMethod env url m opts)⟩ hg
      have e5 := sum_map_set (owed env url opts) gs i ⟨m, .probing⟩
        ⟨m, .tested (testMethod env url m opts)⟩ hg
      simp only [holdsPermit, notDone, owed] at e1 e3 e5
      refine ⟨?_, h2, ?_, ?_, ?_, h6⟩
      · simp only; omega
      · simp only; omega
      · simp only
        rw [map_method_set gs i ⟨m, .probing⟩ _ hg]
        exact h4
      · simp only
        rw [add_right_cancel e5]
        exact h5
  | record i =>
    simp only [step] at ht
    cases hg : gs.get? i with
    | none => simp only [hg] at ht; cases ht
    | some g =>
      obtain ⟨m, st⟩ := g
      simp only [hg] at ht
      cases st <;> simp only at ht <;> try cases ht
      rename_i r
      have e1 := sum_map_set holdsPermit gs i ⟨m, .tested r⟩ ⟨m, .recorded⟩ hg
      have e3 := sum_map_set notDone gs i ⟨m, .tested r⟩ ⟨m, .recorded⟩ hg
      have e5 := sum_map_set (owed env url opts) gs i ⟨m, .tested r⟩ ⟨m, .recorded⟩ hg
      simp only [holdsPermit, notDone, owed, add_zero] at e1 e3 e5
      refine ⟨?_, h2, ?_, ?_, ?_, h6⟩
      · simp only; omega
      · simp only; omega
      · simp only
        rw [map_method_set gs i ⟨m, .tested r⟩ _ hg]
        exact h4
      · simp only
        rw [← h5, ← e5]
        have hr : (↑(if shouldAdd opts.viewMode r = true then results ++ [r] else results) :
            Multiset MethodResult) = ↑results + ↑([r].filter (shouldAdd opts.viewMode)) := by
          cases hp : shouldAdd opts.viewMode r
          · simp [List.filter, hp]
          · simp only [List.filter, hp, if_true]
            exact (Multiset.coe_add _ _).symm
        rw [hr]
        abel
  | release i =>
    simp only [step] at ht
    cases hg : gs.get? i with
    | none => simp only [hg] at ht; cases ht
    | some g =>
      obtain ⟨m, st⟩ := g
      simp only [hg] at ht
      cases st <;> simp only at ht <;> try cases ht
      split at ht
      · rename_i hpos
        cases ht
        have e1 := sum_map_set holdsPermit gs i ⟨m, .recorded⟩ ⟨m, .released⟩ hg
        have e3 := sum_map_set notDone gs i ⟨m, .recorded⟩ ⟨m, .released⟩ hg
        have e5 := sum_map_set (owed env url opts) gs i ⟨m, .recorded⟩ ⟨m, .released⟩ hg
        simp only [holdsPermit, notDone, owed, add_zero] at e1 e3 e5
        refine ⟨?_, ?_, ?_, ?_, ?_, ?_⟩
        · simp only; omega
        · simp only; omega
        · simp only; omega
        · simp only
          rw [map_method_set gs i ⟨m, .recorded⟩ _ hg]
          exact h4
        · simp only
          rw [e5]
          exact h5
        · exact h6
      · cases ht
  | wgDone i =>
    simp only [step] at ht
    cases hg : gs.get? i with
    | none => simp only [hg] at ht; cases ht
    | some g =>
      obtain ⟨m, st⟩ := g
      simp only [hg] at ht
      cases st <;> simp only at ht <;> try cases ht
      split at ht
      · rename_i hpos
        cases ht
        have e1 := sum_map_set holdsPermit gs i ⟨m, .released⟩ ⟨m, .exited⟩ hg
        have e3 := sum_map_set notDone gs i ⟨m, .released⟩ ⟨m, .exited⟩ hg
        have e5 := sum_map_set (owed env url opts) gs i ⟨m, .released⟩ ⟨m, .exited⟩ hg
        simp only [holdsPermit, notDone, owed, add_zero] at e1 e3 e5
        refine ⟨?_, h2, ?_, ?_, ?_, ?_⟩
        · simp only; omega
        · simp only; omega
        · simp only
          rw [map_method_set gs i ⟨m, .released⟩ _ hg]
          exact h4
        · simp only
          rw [e5]
          exact h5
        · intro hm
          have := h6 hm
          omega
      · cases ht
  | wait =>
    cases main <;> cases pending <;> simp only [step] at ht <;> try cases ht
    split at ht
    · rename_i hz
      cases ht
      simp only [mainPermit, mainAdded, mainMethod] at h1 h3 h4 h5
      refine ⟨?_, h2, ?_, ?_, ?_, ?_⟩
      · simpa [mainPermit] using h1
      · simpa [mainAdded] using h3
      · simpa [mainMethod] using h4
      · simpa [mainMethod] using h5
      · intro _; exact ⟨rfl, hz⟩
    · cases ht

theorem scanInv_run (env : Env) (url : String) (opts : options) (methods : List String)
    (sched : List Action) (s t : ScanState) (hs : ScanInv env url opts methods s)
    (ht : runSchedule env url opts s sched = some t) : ScanInv env url opts methods t := by
  induction sched generalizing s with
  | nil =>
    simp only [runSchedule, Option.some.injEq] at ht
    exact ht ▸ hs
  | cons a rest ih =>
    simp only [runSchedule] at ht
    cases hst : step env url opts s a with
    | none => simp only [hst] at ht; cases ht
    | some u =>
      simp only [hst] at ht
      exact ih u (scanInv_step env url opts methods s u a hs hst) ht

theorem countP_probing_le (gs : List Goroutine) :
    gs.countP (fun g => g.stage == .probing) ≤ (gs.map holdsPermit).sum := by
  induction gs with
  | nil => simp
  | cons g t ih =>
    obtain ⟨m, st⟩ := g
    cases st <;> simp [List.countP_cons, holdsPermit] <;> omega

theorem exited_of_notDone_zero (gs : List Goroutine) (h : (gs.map notDone).sum = 0) :
    ∀ g ∈ gs, g.stage = .exited := by
  induction gs with
  | nil => intro g hg; cases hg
  | cons x t ih =>
    obtain ⟨m, st⟩ := x
    cases st <;> simp [notDone] at h
    intro g hg
    rcases List.mem_cons.1 hg with rfl | hg
    · rfl
    · exact ih h g hg

theorem owed_zero_of_exited (env : Env) (url : String) (opts : options) (gs : List Goroutine)
    (h : ∀ g ∈ gs, g.stage = .exited) : (gs.map (owed env url opts)).sum = 0 := by
  induction gs with
  | nil => rfl
  | cons x t ih =>
    have hx : owed env url opts x = 0 := by
      unfold owed
      rw [h x (List.mem_cons_self _ _)]
    simp only [List.map_cons, List.sum_cons, hx, zero_add]
    exact ih (fun g hg => h g (List.mem_cons_of_mem _ hg))

theorem get?_concat (gs : List Goroutine) (g : Goroutine) :
    (gs ++ [g]).get? gs.length = some g := by
  induction gs with
  | nil => rfl
  | cons x t ih => simp

theorem set_concat (gs : List Goroutine) (g h : Goroutine) :
    (gs ++ [g]).set gs.length h = gs ++ [h] := by
  induction gs with
  | nil => rfl
  | cons x t ih => simp

theorem sequential_round (env : Env) (url : String) (opts : options) (m : String)
    (rest : List String) (gs : List Goroutine) (results : List MethodResult)
    (hN : 1 ≤ opts.concurrent) (tail : List Action) :
    runSchedule env url opts
      { pending := m :: rest, main := .loopHead, sem := 0, wg := 0, goroutines := gs,
        results := results }
      ([.send, .add, .spawn, .probeReturns gs.length, .record gs.length, .release gs.length,
        .wgDone gs.length] ++ tail) =
    runSchedule env url opts
      { pending := rest, main := .loopHead, sem := 0, wg := 0,
        goroutines := gs ++ [⟨m, .exited⟩],
        results := if shouldAdd opts.viewMode (testMethod env url m opts)
          then results ++ [testMethod env url m opts] else results }
      tail := by
  have hc : 0 < opts.concurrent.toNat := by omega
  simp [runSchedule, step, hc, get?_concat, set_concat]

theorem sequential_finishes (env : Env) (url : String) (opts : options)
    (hN : 1 ≤ opts.concurrent) (ms : List String) (gs : List Goroutine)
    (results : List MethodResult) :
    ∃ t, runSchedule env url opts
      { pending := ms, main := .loopHead, sem := 0, wg := 0, goroutines := gs,
        results := results }
      (sequentialSchedule ms.length gs.length) = some t ∧ t.main = .finished := by
  induction ms generalizing gs results with
  | nil => exact ⟨_, rfl, rfl⟩
  | cons m rest ih =>
    simp only [List.length_cons, sequentialSchedule]
    rw [sequential_round env url opts m rest gs results hN]
    have := ih (gs ++ [⟨m, .exited⟩])
      (if shouldAdd opts.viewMode (testMethod env url m opts)
        then results ++ [testMethod env url m opts] else results)
    simpa using this

/-! ## Claims about the scan -/

/-- C9: with a concurrency limit of at least 1, in every state the scan of a URL can
reach, the probes in flight are at most the permits buffered in `sem`, which are at most
the limit; the permits equal the goroutines that have not yet received from `sem` plus
the method the loop is about to start; a goroutine is started only while a permit is
buffered; the deferred receive takes exactly one permit and never blocks; when
`wg.Wait()` has returned every method was started and every goroutine has finished;
and the scan can run to that end. -/
theorem scan_concurrency_bound (env : Env) (url : String) (opts : options)
    (methods : List String) (sched : List Action) (s : ScanState)
    (hN : 1 ≤ opts.concurrent)
    (hrun : runSchedule env url opts (initScan methods) sched = some s) :
    (inFlight s : Int) ≤ opts.concurrent ∧
    inFlight s ≤ s.sem ∧ (s.sem : Int) ≤ opts.concurrent ∧
    (s.goroutines.map holdsPermit).sum + mainPermit s.main = s.sem ∧
    (∀ t, step env url opts s .spawn = some t → 0 < s.sem) ∧
    (∀ i g, s.goroutines.get? i = some g → g.stage = .recorded →
      ∃ t, step env url opts s (.release i) = some t ∧ t.sem + 1 = s.sem) ∧
    (s.main = .finished →
      s.goroutines.map Goroutine.method = methods ∧ ∀ g ∈ s.goroutines, g.stage = .exited) ∧
    (∃ t, runSchedule env url opts (initScan methods)
      (sequentialSchedule methods.length 0) = some t ∧ t.main = .finished) := by
  have inv := scanInv_run env url opts methods sched _ s (scanInv_init env url opts methods) hrun
  have hfl : inFlight s ≤ s.sem := by
    have := countP_probing_le s.goroutines
    have := inv.permits
    unfold inFlight
    omega
  have hcap := inv.capacity
  refine ⟨by omega, hfl, by omega, inv.permits, ?_, ?_, ?_, ?_⟩
  · intro t ht
    have hp := inv.permits
    cases hm : s.main <;> simp only [step, hm] at ht <;> try cases ht
    simp only [hm, mainPermit] at hp
    omega
  · intro i g hg hst
    have hsum := sum_map_set holdsPermit s.goroutines i g ⟨g.method, .released⟩ hg
    have hp := inv.permits
    have hpos : 0 < s.sem := by
      simp only [holdsPermit, hst] at hsum
      omega
    refine ⟨{ s with goroutines := s.goroutines.set i ⟨g.method, .released⟩,
                     sem := s.sem - 1 }, ?_, ?_⟩
    · simp only [step, hg, hst, hpos, if_true]
    · simp only; omega
  · intro hfin
    obtain ⟨hp, hw⟩ := inv.final hfin
    have hc := inv.counter
    have ho := inv.order
    rw [hfin, hp] at ho
    rw [hfin, hw] at hc
    simp only [mainAdded, Nat.add_zero] at hc
    simp only [mainMethod, List.append_nil] at ho
    exact ⟨ho, exited_of_notDone_zero _ hc⟩
  · exact sequential_finishes env url opts hN methods [] []

/-- Witness for C9: limit 2, three methods, two probes in flight; the third send
cannot run. -/
theorem scan_concurrency_bound_witness :
    runSchedule (fixedServer true 200 "200 OK" "") "https://example.com"
        { defaultOptions with concurrent := 2 } (initScan ["GET", "PUT", "POST"])
        [.send, .add, .spawn, .send, .add, .spawn] = some twoInFlight ∧
    step (fixedServer true 200 "200 OK" "") "https://example.com"
        { defaultOptions with concurrent := 2 } twoInFlight .send = none ∧
    inFlight twoInFlight = 2 ∧ (inFlight twoInFlight : Int) ≤ 2 :=
  ⟨rfl, rfl, rfl,
    (scan_concurrency_bound (fixedServer true 200 "200 OK" "") "https://example.com"
      { defaultOptions with concurrent := 2 } ["GET", "PUT", "POST"]
      [.send, .add, .spawn, .send, .add, .spawn] twoInFlight (by decide) rfl).1⟩

/-- C6: a result is appended under `all` always, under `enabled` exactly when its
status code is neither 405 nor 501 (status code 0 is kept), under `vulnerable` exactly
when it is vulnerable; when the scan of a URL has returned, the kept list holds exactly
the probe results of the configured methods that pass the view mode, each once, in
some order. -/
theorem scan_keeps_filtered_results (env : Env) (url : String) (opts : options)
    (methods : List String) (sched : List Action) (s : ScanState)
    (hrun : runSchedule env url opts (initScan methods) sched = some s)
    (hfin : s.main = .finished) :
    (∀ r, shouldAdd "all" r = true) ∧
    (∀ r, shouldAdd "enabled" r = true ↔ (r.StatusCode ≠ 405 ∧ r.StatusCode ≠ 501)) ∧
    (∀ r, r.StatusCode = 0 → shouldAdd "enabled" r = true) ∧
    (∀ r, shouldAdd "vulnerable" r = true ↔ r.IsVulnerable = true) ∧
    (∀ (u t : ScanState) (i : Nat) (g : Goroutine) (r : MethodResult),
      u.goroutines.get? i = some g → g.stage = .tested r →
      step env url opts u (.record i) = some t →
      t.results = if shouldAdd opts.viewMode r then u.results ++ [r] else u.results) ∧
    s.results.Perm
      ((methods.map (fun m => testMethod env url m opts)).filter (shouldAdd opts.viewMode)) ∧
    (opts.viewMode = "all" → s.results.Perm (methods.map (fun m => testMethod env url m opts))) := by
  have inv := scanInv_run env url opts methods sched _ s (scanInv_init env url opts methods) hrun
  have hperm : s.results.Perm
      ((methods.map (fun m => testMethod env url m opts)).filter (shouldAdd opts.viewMode)) := by
    obtain ⟨hp, hw⟩ := inv.final hfin
    have hc := inv.counter
    have hk := inv.kept
    rw [hfin, hw] at hc
    simp only [mainAdded, Nat.add_zero] at hc
    rw [owed_zero_of_exited env url opts _ (exited_of_notDone_zero _ hc), hfin, hp] at hk
    simp only [mainMethod, List.append_nil, add_zero] at hk
    have hk2 : (↑s.results : Multiset MethodResult) = ↑(keptOf env url opts methods) := by
      simpa [keptOf] using hk
    exact Multiset.coe_eq_coe.1 hk2
  refine ⟨?_, ?_, ?_, ?_, ?_, hperm, ?_⟩
  · intro r; rfl
  · intro r
    simp [shouldAdd]
  · intro r h0
    simp [shouldAdd, h0]
  · intro r
    simp [shouldAdd]
  · intro u t i g r hg hst ht
    simp only [step, hg, hst, Option.some.injEq] at ht
    rw [← ht]
  · intro hall
    have hf : (methods.map (fun m => testMethod env url m opts)).filter
        (shouldAdd opts.viewMode) = methods.map (fun m => testMethod env url m opts) := by
      rw [List.filter_eq_self]
      intro r _
      rw [hall]
      rfl
    rw [hf] at hperm
    exact hperm

/-- Witness for C6: view mode `vulnerable`, GET and PUT both answered 200, the goroutines
interleaved; only the PUT result is kept. -/
theorem scan_keeps_filtered_results_witness :
    runSchedule (fixedServer true 200 "200 OK" "") "https://example.com"
        { defaultOptions with viewMode := "vulnerable" } (initScan ["GET", "PUT"])
        [.send, .add, .spawn, .send, .add, .spawn, .probeReturns 1, .probeReturns 0,
         .record 1, .record 0, .release 0, .release 1, .wgDone 1, .wgDone 0, .wait]
      = some vulnerableScanEnd ∧
    vulnerableScanEnd.main = .finished ∧
    vulnerableScanEnd.results.Perm
      ((["GET", "PUT"].map (fun m => testMethod (fixedServer true 200 "200 OK" "")
          "https://example.com" m { defaultOptions with viewMode := "vulnerable" })).filter
        (shouldAdd "vulnerable")) :=
  ⟨by decide, rfl,
    (scan_keeps_filtered_results (fixedServer true 200 "200 OK" "") "https://example.com"
      { defaultOptions with viewMode := "vulnerable" } ["GET", "PUT"]
      [.send, .add, .spawn, .send, .add, .spawn, .probeReturns 1, .probeReturns 0,
       .record 1, .record 0, .release 0, .release 1, .wgDone 1, .wgDone 0, .wait]
      vulnerableScanEnd (by decide) rfl).2.2.2.2.2.1⟩

end CheckHttpMethods
